import Mathlib

/-! Reflection-driven value marshalling of the MCP automation bridge.

A shallow embedding of the helper functions of `McpAutomationBridgeHelpers.h`:

* `ExportPropertyToJsonValue`  (reflected property  ->  JSON value),
* `ApplyJsonValueToProperty`   (JSON value  ->  reflected property),
* `ResolveNestedPropertyPath`  (dotted path  ->  container and property),
* `GetJsonStringField`, `GetJsonNumberField`, `GetJsonBoolField`, `GetJsonIntField`,
* `SanitizeAssetName`, `SanitizeProjectRelativePath`, `ExtractTopLevelJsonObjects`.

Conventions of the embedding.

* A JSON number (a C++ `double` that a JSON document can denote) is a rational number.
* A C++ pointer that may be null is an `Option`.
* A container (`void *TargetContainer`) is the list of its named slots; the value of a
  struct slot is again such a list, so a struct sub-address is a container as well.
* Out-parameters (`OutError`, `OutContainerPtr`) are inputs and outputs of the function.
* Engine and C library routines that the helpers call but that are not part of the
  plugin are fields of `Host`; every theorem that does not say otherwise holds for all hosts.
-/

namespace McpBridge

/-! ## JSON value model (`FJsonValue`, `EJson`) -/

/-- JSON values as the engine's `FJsonValue` hierarchy presents them. -/
inductive JsonValue where
  | null
  | boolean (b : Bool)
  | number (n : ℚ)
  | string (s : String)
  | array (items : List JsonValue)
  | object (fields : List (String × JsonValue))

/-- The tag `FJsonValue::Type`. -/
inductive EJson where
  | Null | Boolean | Number | String | Array | Object
  deriving DecidableEq, Repr

/-- Reads `ValueField->Type`. -/
def JsonValue.type : JsonValue → EJson
  | .null => .Null
  | .boolean _ => .Boolean
  | .number _ => .Number
  | .string _ => .String
  | .array _ => .Array
  | .object _ => .Object

/-! ## Reflection model (`UEnum`, `FProperty`, `UStruct`) -/

/-- An enum definition: its name and its members as (name, value) entries, each name in
the form under which the enum registers it: bare (`Fast`) or qualified with the enum
(`EMode::Fast`). -/
structure UEnum where
  name : String
  members : List (String × Int)

/-- The concrete `FProperty` subclass of a property together with what the helpers read
from it.  `other` stands for every property class that none of the `CastField` tests of
the helpers accepts (text, delegate, interface properties and so on). -/
inductive PropKind where
  | bool
  | str
  | name
  | float
  | double
  | int32
  | int64
  | byte (e : Option UEnum)
  | enum (e : Option UEnum) (hasUnderlying : Bool)
  | object
  | softObject
  | softClass
  | struct (typeName : String) (fields : List (String × PropKind))
  | array (inner : PropKind)
  | map (key value : PropKind)
  | set (elem : PropKind)
  | other (className : String)

/-- A reflected property: its declared name and its kind. -/
structure FProperty where
  name : String
  kind : PropKind

/-- A scope in which properties are looked up (`UClass` or `UScriptStruct`). -/
structure UStruct where
  name : String
  props : List FProperty

/-- Identity of a `UObject`. -/
abbrev ObjId := Nat

/-- The contents of one slot.  `blank` is a default-constructed value of a type the
helpers never look into. -/
inductive PropValue where
  | bool (b : Bool)
  | str (s : String)
  | name (s : String)
  | float (x : ℚ)
  | double (x : ℚ)
  | int32 (i : Int)
  | int64 (i : Int)
  | byte (n : Nat)
  | enumVal (i : Int)
  | object (o : Option ObjId)
  | soft (path : Option String)
  | struct (slots : List (String × PropValue))
  | array (items : List PropValue)
  | map (entries : List (PropValue × PropValue))
  | set (items : List PropValue)
  | blank

/-- The memory of an object or of a struct instance: its slots by property name. -/
abbrev Container := List (String × PropValue)

/-- Reads the slot of the property called `n` (the first entry of that name). -/
def Container.get : Container → String → Option PropValue
  | [], _ => none
  | (k, x) :: rest, n => if k = n then some x else Container.get rest n

/-- Overwrites the slot of the property called `n`, keeping every other slot. -/
def Container.set : Container → String → PropValue → Container
  | [], n, v => [(n, v)]
  | (k, x) :: rest, n, v =>
    if k = n then (n, v) :: rest else (k, x) :: Container.set rest n v

/-! ### Typed reads of a slot

Reading a slot through a property of another type is undefined in C++; the model returns
the zero value of the requested type there. -/

def readBool : Option PropValue → Bool
  | some (.bool b) => b
  | _ => false

def readStr : Option PropValue → String
  | some (.str s) => s
  | _ => ""

def readName : Option PropValue → String
  | some (.name s) => s
  | _ => ""

def readFloat : Option PropValue → ℚ
  | some (.float x) => x
  | _ => 0

def readDouble : Option PropValue → ℚ
  | some (.double x) => x
  | _ => 0

def readInt32 : Option PropValue → Int
  | some (.int32 i) => i
  | _ => 0

def readInt64 : Option PropValue → Int
  | some (.int64 i) => i
  | _ => 0

def readByte : Option PropValue → Nat
  | some (.byte n) => n
  | _ => 0

def readEnum : Option PropValue → Int
  | some (.enumVal i) => i
  | _ => 0

def readObject : Option PropValue → Option ObjId
  | some (.object o) => o
  | _ => none

def readSoft : Option PropValue → Option String
  | some (.soft p) => p
  | _ => none

def readStruct : Option PropValue → Container
  | some (.struct slots) => slots
  | _ => []

def readArray : Option PropValue → List PropValue
  | some (.array xs) => xs
  | _ => []

def readMap : Option PropValue → List (PropValue × PropValue)
  | some (.map es) => es
  | _ => []

def readSet : Option PropValue → List PropValue
  | some (.set xs) => xs
  | _ => []

/-! ## Machine integers -/

/-- The value of a `double` cut off toward zero, as an unbounded integer. -/
def truncToInt (x : ℚ) : Int := x.num.tdiv x.den

/-- Two's complement wrap of an integer into `w` bits, signed. -/
def wrapSigned (w : Nat) (i : Int) : Int :=
  let m := i % (2 ^ w : Int)
  if m < (2 ^ (w - 1) : Int) then m else m - (2 ^ w : Int)

/-- Conversion of an `int64` to `int32`: the low 32 bits. -/
def toInt32 (i : Int) : Int := wrapSigned 32 i

/-- Conversion of an integer to `uint8`: the low 8 bits. -/
def toUInt8 (i : Int) : Nat := (i % 256).toNat

/-- The constant `INDEX_NONE`. -/
def INDEX_NONE : Int := -1

/-! ## Strings (`FString`) -/

/-- Comparison `FString::Equals(..., ESearchCase::IgnoreCase)`. -/
def equalsIgnoreCase (a b : String) : Bool :=
  a.toList.map Char.toLower == b.toList.map Char.toLower

/-- Test `FString::Contains` for a one-character pattern. -/
def containsChar (s : String) (c : Char) : Bool := s.toList.contains c

/-! ## Collaborators outside the plugin -/

/-- Engine and C library routines which the helpers call.  Their code is not part of the
plugin, so they are parameters of the embedding. -/
structure Host where
  /-- Conversion `static_cast<float>(double)`, read back as a `double`. -/
  toFloat : ℚ → ℚ
  /-- What the conversion of a `double` to `int64` yields when the truncated value does
  not fit into 64 bits; C++ leaves it undefined, the platform decides. -/
  int64OutOfRange : ℚ → Int
  /-- What the conversion of a `double` to `int32` yields when the truncated value does
  not fit into 32 bits; C++ leaves it undefined, the platform decides. -/
  int32OutOfRange : ℚ → Int
  /-- What the conversion of a `double` to `uint8` yields when the truncated value does
  not fit into 8 bits; C++ leaves it undefined, the platform decides. -/
  uint8OutOfRange : ℚ → Nat
  /-- Routine `FCString::Atod`. -/
  atod : String → ℚ
  /-- Routine `FCString::Atoi64` (a 64-bit integer). -/
  atoi64 : String → Int
  /-- Routine `FCString::Atoi` (a 32-bit integer). -/
  atoi : String → Int
  /-- Formatting `FString::Printf(TEXT("%g"), x)`. -/
  formatG : ℚ → String
  /-- Method `FJsonValue::TryGetNumber` on a value that is not a Number. -/
  tryGetNumberOther : JsonValue → Option ℚ
  /-- Method `FJsonValue::TryGetString` on a value that is not a String. -/
  tryGetStringOther : JsonValue → Option String
  /-- Method `FJsonValue::TryGetBool` on a value that is not a Boolean. -/
  tryGetBoolOther : JsonValue → Option Bool
  /-- Routine `FPaths::NormalizeFilename`. -/
  normalizeFilename : String → String
  /-- Loader `LoadObject<UObject>(nullptr, Path)`. -/
  loadObject : String → Option ObjId
  /-- Loader `StaticLoadObject(UObject::StaticClass(), nullptr, Path)`. -/
  staticLoadObject : String → Option ObjId
  /-- Method `UObject::GetPathName`. -/
  pathName : ObjId → String
  /-- Textual export of a value (`ExportText`, `ExportTextItem_Direct`). -/
  exportText : PropKind → PropValue → String
  /-- Parser `FJsonSerializer::Deserialize` into a JSON object; `none` when it fails or the
  parsed object is invalid. -/
  parseJsonObject : String → Option (List (String × JsonValue))
  /-- Converter `FJsonObjectConverter::JsonObjectToUStruct`, writing into the struct
  instance it is given: its verdict and the instance afterwards. -/
  jsonObjectToUStruct :
    List (String × JsonValue) → List (String × PropKind) → Container → Bool × Container
  /-- Equality of two `FName`s made from the given strings. -/
  fnameEq : String → String → Bool

/-- Method `FJsonValue::TryGetNumber`; `none` is the answer `false`. -/
def TryGetNumber (h : Host) : JsonValue → Option ℚ
  | .number n => some n
  | v => h.tryGetNumberOther v

/-- Method `FJsonValue::TryGetString`. -/
def TryGetString (h : Host) : JsonValue → Option String
  | .string s => some s
  | v => h.tryGetStringOther v

/-- Method `FJsonValue::TryGetBool`. -/
def TryGetBool (h : Host) : JsonValue → Option Bool
  | .boolean b => some b
  | v => h.tryGetBoolOther v

/-- Accessor `FJsonValue::AsNumber`: the `TryGetNumber` answer, or zero. -/
def AsNumber (h : Host) (v : JsonValue) : ℚ := (TryGetNumber h v).getD 0

/-- Accessor `FJsonValue::AsString`: the `TryGetString` answer, or the empty string. -/
def AsString (h : Host) (v : JsonValue) : String := (TryGetString h v).getD ""

/-- Accessor `FJsonValue::AsBool`: the `TryGetBool` answer, or `false`. -/
def AsBool (h : Host) (v : JsonValue) : Bool := (TryGetBool h v).getD false

/-! ### Conversions of a `double` to an integer type

The value is cut off toward zero; when the result does not fit into the target type the
C++ conversion is undefined and the platform decides (a field of `Host`). -/

/-- Conversion `static_cast<int64>(double)`. -/
def toInt64 (h : Host) (x : ℚ) : Int :=
  if -9223372036854775808 ≤ truncToInt x ∧ truncToInt x < 9223372036854775808 then
    truncToInt x
  else h.int64OutOfRange x

/-- Conversion `(int32)` and `static_cast<int32>` of a `double`. -/
def doubleToInt32 (h : Host) (x : ℚ) : Int :=
  if -2147483648 ≤ truncToInt x ∧ truncToInt x < 2147483648 then truncToInt x
  else h.int32OutOfRange x

/-- Conversion `(uint8)` of a `double`. -/
def doubleToUInt8 (h : Host) (x : ℚ) : Nat :=
  if 0 ≤ truncToInt x ∧ truncToInt x < 256 then (truncToInt x).toNat
  else h.uint8OutOfRange x

/-! ### Enum tables

The engine routines on `UEnum`, outside the plugin, as lookups in the member table.  A
lookup by name compares the given text with the registered names; the helpers try the
text as it is first and the text qualified with the enum next. -/

/-- Routine `UEnum::GetValueByNameString`: the value of the member so named, else
`INDEX_NONE`. -/
def UEnum.GetValueByNameString (E : UEnum) (s : String) : Int :=
  match E.members.find? (fun m => decide (m.1 = s)) with
  | some m => m.2
  | none => INDEX_NONE

/-- Routine `UEnum::GenerateFullEnumName`: the given name qualified by the enum. -/
def UEnum.GenerateFullEnumName (E : UEnum) (s : String) : String :=
  E.name ++ "::" ++ s

/-- Routine `UEnum::GetValueByName`: the value of the member registered under the given
name, else `INDEX_NONE`. -/
def UEnum.GetValueByName (E : UEnum) (full : String) : Int :=
  match E.members.find? (fun m => decide (m.1 = full)) with
  | some m => m.2
  | none => INDEX_NONE

/-- Routine `UEnum::IsValidEnumValue`. -/
def UEnum.IsValidEnumValue (E : UEnum) (v : Int) : Bool :=
  E.members.any (fun m => decide (m.2 = v))

/-- Routine `UEnum::GetNameStringByValue`: the name of the member of that value, else the
empty string. -/
def UEnum.GetNameStringByValue (E : UEnum) (v : Int) : String :=
  match E.members.find? (fun m => decide (m.2 = v)) with
  | some m => m.1
  | none => ""

/-! ## `ExportPropertyToJsonValue` -/

/-- Setter `FJsonObject::SetField`: replaces the field of that name or adds it. -/
def setField : List (String × JsonValue) → String → JsonValue → List (String × JsonValue)
  | [], k, v => [(k, v)]
  | (k0, v0) :: rest, k, v =>
    if k0 = k then (k, v) :: rest else (k0, v0) :: setField rest k v

/-- Element rule of the array branch (source lines 959-1002). -/
def exportArrayElem (h : Host) (inner : PropKind) (e : PropValue) : JsonValue :=
  match inner with
  | .str => .string (readStr (some e))
  | .name => .string (readName (some e))
  | .bool => .boolean (readBool (some e))
  | .float => .number (readFloat (some e))
  | .double => .number (readDouble (some e))
  | .int32 => .number (readInt32 (some e))
  | k => .string (h.exportText k e)

/-- Key rule of the map branch (source lines 1023-1033); `i` is the entry index. -/
def exportMapKey (keyKind : PropKind) (i : Nat) (k : PropValue) : String :=
  match keyKind with
  | .str => readStr (some k)
  | .name => readName (some k)
  | .int32 => toString (readInt32 (some k))
  | _ => "key_" ++ toString i

/-- Value rule of the map branch (source lines 1036-1060). -/
def exportMapValue (h : Host) (valueKind : PropKind) (v : PropValue) : JsonValue :=
  match valueKind with
  | .str => .string (readStr (some v))
  | .int32 => .number (readInt32 (some v))
  | .float => .number (readFloat (some v))
  | .bool => .boolean (readBool (some v))
  | k => .string (h.exportText k v)

/-- Element rule of the set branch (source lines 1079-1102). -/
def exportSetElem (h : Host) (elemKind : PropKind) (e : PropValue) : JsonValue :=
  match elemKind with
  | .str => .string (readStr (some e))
  | .name => .string (readName (some e))
  | .int32 => .number (readInt32 (some e))
  | .float => .number (readFloat (some e))
  | k => .string (h.exportText k e)

/-- The loop of the map branch, from entry index `i` on. -/
def exportMapLoop (h : Host) (keyKind valueKind : PropKind) :
    Nat → List (PropValue × PropValue) → List (String × JsonValue) →
    List (String × JsonValue)
  | _, [], acc => acc
  | i, (k, v) :: rest, acc =>
    exportMapLoop h keyKind valueKind (i + 1) rest
      (setField acc (exportMapKey keyKind i k) (exportMapValue h valueKind v))

/-- Body of `ExportPropertyToJsonValue` once container and property are known to be
non-null. -/
def exportCore (h : Host) (c : Container) (p : FProperty) : Option JsonValue :=
  let slot := c.get p.name
  match p.kind with
  | .str => some (.string (readStr slot))
  | .name => some (.string (readName slot))
  | .bool => some (.boolean (readBool slot))
  | .float => some (.number (readFloat slot))
  | .double => some (.number (readDouble slot))
  | .int32 => some (.number (readInt32 slot))
  | .int64 => some (.number (readInt64 slot))
  | .byte e =>
    let byteVal := readByte slot
    match e with
    | some E =>
      let enumName := E.GetNameStringByValue byteVal
      if enumName ≠ "" then some (.string enumName) else some (.number byteVal)
    | none => some (.number byteVal)
  | .enum e hasUnderlying =>
    match e, hasUnderlying with
    | some E, true =>
      let enumVal := readEnum slot
      let enumName := E.GetNameStringByValue enumVal
      if enumName ≠ "" then some (.string enumName) else some (.number enumVal)
    | _, _ => some (.number 0)
  | .object =>
    match readObject slot with
    | some o => some (.string (h.pathName o))
    | none => some .null
  | .softObject =>
    match readSoft slot with
    | some path => some (.string path)
    | none => some .null
  | .softClass =>
    match readSoft slot with
    | some path => some (.string path)
    | none => some .null
  | .struct typeName fields =>
    let v := readStruct slot
    if equalsIgnoreCase typeName "Vector" then
      some (.array [.number (readDouble (v.get "X")), .number (readDouble (v.get "Y")),
        .number (readDouble (v.get "Z"))])
    else if equalsIgnoreCase typeName "Rotator" then
      some (.array [.number (readDouble (v.get "Pitch")), .number (readDouble (v.get "Yaw")),
        .number (readDouble (v.get "Roll"))])
    else some (.string (h.exportText (.struct typeName fields) (.struct v)))
  | .array inner => some (.array ((readArray slot).map (exportArrayElem h inner)))
  | .map keyKind valueKind =>
    some (.object (exportMapLoop h keyKind valueKind 0 (readMap slot) []))
  | .set elemKind => some (.array ((readSet slot).map (exportSetElem h elemKind)))
  | .other _ => none

/-- Function `ExportPropertyToJsonValue`; `none` is the null shared pointer. -/
def ExportPropertyToJsonValue (h : Host) (TargetContainer : Option Container)
    (Property : Option FProperty) : Option JsonValue :=
  match TargetContainer, Property with
  | some c, some p => exportCore h c p
  | _, _ => none

/-! ## `ApplyJsonValueToProperty` -/

/-- What a call leaves behind: the returned flag, `OutError`, and the container. -/
structure ApplyResult where
  ok : Bool
  OutError : String
  container : Container

/-- Conversion of one JSON array element into a new array element of the given inner
kind (source lines 1572-1623); `none` when the inner kind has no conversion. -/
def convertArrayElem (h : Host) (inner : PropKind) (V : JsonValue) : Option PropValue :=
  match inner with
  | .str =>
    some (.str (if V.type = .String then AsString h V else h.formatG (AsNumber h V)))
  | .name =>
    some (.name (if V.type = .String then AsString h V else h.formatG (AsNumber h V)))
  | .bool =>
    some (.bool (if V.type = .Boolean then AsBool h V else decide (AsNumber h V ≠ 0)))
  | .float =>
    some (.float (if V.type = .Number then h.toFloat (AsNumber h V)
      else h.toFloat (h.atod (AsString h V))))
  | .double =>
    some (.double (if V.type = .Number then AsNumber h V else h.atod (AsString h V)))
  | .int32 =>
    some (.int32 (if V.type = .Number then doubleToInt32 h (AsNumber h V)
      else h.atoi (AsString h V)))
  | .int64 =>
    some (.int64 (if V.type = .Number then toInt64 h (AsNumber h V)
      else h.atoi64 (AsString h V)))
  | .byte _ =>
    some (.byte (if V.type = .Number then doubleToUInt8 h (AsNumber h V)
      else toUInt8 (h.atoi (AsString h V))))
  | _ => none

/-- The fill loop of the array branch (source lines 1567-1629): `Helper.AddValue()`
appends a default element, which is then overwritten or, for an inner kind without a
conversion, left behind when the function gives up. -/
def fillArray (h : Host) (inner : PropKind) :
    List JsonValue → List PropValue → Bool × List PropValue
  | [], acc => (true, acc)
  | V :: rest, acc =>
    match convertArrayElem h inner V with
    | some e => fillArray h inner rest (acc ++ [e])
    | none => (false, acc ++ [PropValue.blank])

/-- The two lookups of an enum member by string: bare name first, qualified name next. -/
def enumValueOfString (E : UEnum) (InStr : String) : Int :=
  let EnumVal := E.GetValueByNameString InStr
  if EnumVal = INDEX_NONE then E.GetValueByName (E.GenerateFullEnumName InStr)
  else EnumVal

/-- Message of the failed enum lookup by string. -/
def invalidEnumValueMsg (InStr enumName : String) : String :=
  "Invalid enum value '" ++ InStr ++ "' for enum '" ++ enumName ++ "'"

/-- Message of the failed enum validation by number. -/
def invalidEnumNumberMsg (Val : Int) (enumName : String) : String :=
  "Numeric value " ++ toString Val ++ " is not valid for enum '" ++ enumName ++ "'"

/-- Body of `ApplyJsonValueToProperty` after `OutError.Empty()` and the null checks; a
path that returns `true` leaves `OutError` empty. -/
def applyCore (h : Host) (c : Container) (p : FProperty) (v : JsonValue) : ApplyResult :=
  let done (x : PropValue) : ApplyResult := ⟨true, "", c.set p.name x⟩
  let fail (msg : String) : ApplyResult := ⟨false, msg, c⟩
  match p.kind with
  | .bool =>
    match v with
    | .boolean b => done (.bool b)
    | .number n => done (.bool (decide (n ≠ 0)))
    | .string s => done (.bool (equalsIgnoreCase s "true"))
    | _ => fail "Unsupported JSON type for bool property"
  | .str =>
    match v with
    | .string s => done (.str s)
    | _ => fail "Expected string for string property"
  | .name =>
    match v with
    | .string s => done (.name s)
    | _ => fail "Expected string for name property"
  | .float =>
    match v with
    | .number n => done (.float (h.toFloat n))
    | .string s => done (.float (h.toFloat (h.atod s)))
    | _ => fail "Unsupported JSON type for float property"
  | .double =>
    match v with
    | .number n => done (.double n)
    | .string s => done (.double (h.atod s))
    | _ => fail "Unsupported JSON type for double property"
  | .int32 =>
    match v with
    | .number n => done (.int32 (toInt32 (toInt64 h n)))
    | .string s => done (.int32 (toInt32 (h.atoi64 s)))
    | _ => fail "Unsupported JSON type for int property"
  | .int64 =>
    match v with
    | .number n => done (.int64 (toInt64 h n))
    | .string s => done (.int64 (h.atoi64 s))
    | _ => fail "Unsupported JSON type for int64 property"
  | .byte (some E) =>
    match v with
    | .string InStr =>
      let EnumVal := enumValueOfString E InStr
      if EnumVal = INDEX_NONE then fail (invalidEnumValueMsg InStr E.name)
      else done (.byte (toUInt8 EnumVal))
    | .number n =>
      let Val := toInt64 h n
      if E.IsValidEnumValue Val then done (.byte (toUInt8 Val))
      else fail (invalidEnumNumberMsg Val E.name)
    | _ => fail "Enum property requires string or number"
  | .byte none =>
    match v with
    | .number n => done (.byte (toUInt8 (toInt64 h n)))
    | .string s => done (.byte (toUInt8 (h.atoi64 s)))
    | _ => fail "Unsupported JSON type for byte property"
  | .enum (some E) true =>
    match v with
    | .string InStr =>
      let EnumVal := enumValueOfString E InStr
      if EnumVal = INDEX_NONE then fail (invalidEnumValueMsg InStr E.name)
      else done (.enumVal EnumVal)
    | .number n =>
      let Val := toInt64 h n
      if E.IsValidEnumValue Val then done (.enumVal Val)
      else fail (invalidEnumNumberMsg Val E.name)
    | _ => fail "Enum property requires string or number"
  | .enum _ _ => fail "Enum property has no valid enum definition"
  | .object =>
    match v with
    | .string Path =>
      let Res : Option ObjId :=
        if Path ≠ "" then
          match h.loadObject Path with
          | some o => some o
          | none => if !containsChar Path '.' then h.staticLoadObject Path else none
        else none
      if Res.isNone ∧ Path ≠ "" then fail ("Failed to load object at path: " ++ Path)
      else done (.object Res)
    | _ => fail "Unsupported JSON type for object property"
  | .softObject =>
    match v with
    | .string Path => if Path = "" then done (.soft none) else done (.soft (some Path))
    | .null => done (.soft none)
    | _ => fail "Soft object property requires string path or null"
  | .softClass =>
    match v with
    | .string Path => if Path = "" then done (.soft none) else done (.soft (some Path))
    | .null => done (.soft none)
    | _ => fail "Soft class property requires string path or null"
  | .struct typeName fields =>
    let unsupported := fail "Unsupported JSON type for struct property"
    match v with
    | .array Arr =>
      match Arr with
      | a0 :: a1 :: a2 :: _ =>
        if equalsIgnoreCase typeName "Vector" then
          done (.struct [("X", .double (h.toFloat (AsNumber h a0))),
            ("Y", .double (h.toFloat (AsNumber h a1))),
            ("Z", .double (h.toFloat (AsNumber h a2)))])
        else if equalsIgnoreCase typeName "Rotator" then
          done (.struct [("Pitch", .double (h.toFloat (AsNumber h a0))),
            ("Yaw", .double (h.toFloat (AsNumber h a1))),
            ("Roll", .double (h.toFloat (AsNumber h a2)))])
        else unsupported
      | _ => unsupported
    | .string Txt =>
      match h.parseJsonObject Txt with
      | some ParsedObj =>
        let r := h.jsonObjectToUStruct ParsedObj fields (readStruct (c.get p.name))
        if r.1 then done (.struct r.2)
        else ⟨false, "Unsupported JSON type for struct property",
          c.set p.name (.struct r.2)⟩
      | none => unsupported
    | _ => unsupported
  | .array inner =>
    match v with
    | .array Src =>
      let r := fillArray h inner Src []
      if r.1 then done (.array r.2)
      else ⟨false, "Unsupported array inner property type for JSON assignment",
        c.set p.name (.array r.2)⟩
    | _ => fail "Expected array for array property"
  | _ => fail "Unsupported property type for JSON assignment"

/-- Function `ApplyJsonValueToProperty`.  `OutError` is the caller's string on entry, which
`OutError.Empty()` discards at once; a null container stays null, so the container of the
result is again an `Option`. -/
def ApplyJsonValueToProperty (h : Host) (TargetContainer : Option Container)
    (Property : Option FProperty) (ValueField : Option JsonValue) (OutError : String) :
    Bool × String × Option Container :=
  let _entry := OutError
  match TargetContainer, Property, ValueField with
  | some c, some p, some v =>
    let r := applyCore h c p v
    (r.ok, r.OutError, some r.container)
  | _, _, _ => (false, "Invalid target/property/value", TargetContainer)

/-! ## `ResolveNestedPropertyPath` -/

/-- The scan behind `ParseIntoArray`: `cur` is the piece read so far. -/
def parseScan (delim : Char) : List Char → List Char → List String
  | [], cur => if cur = [] then [] else [String.mk cur]
  | c :: cs, cur =>
    if c = delim then
      if cur = [] then parseScan delim cs [] else String.mk cur :: parseScan delim cs []
    else parseScan delim cs (cur ++ [c])

/-- Routine `FString::ParseIntoArray(Out, Delim, true)` for a one-character delimiter:
the pieces between delimiters, in order, empty pieces culled. -/
def ParseIntoArray (s : String) (delim : Char) : List String :=
  parseScan delim s.toList []

/-- What the resolver reads from the object graph, for an address type `Ptr`. -/
structure Memory (Ptr : Type) where
  /-- Method `UObject::GetClass`, as a lookup scope. -/
  classOf : Ptr → UStruct
  /-- Method `GetObjectPropertyValue_InContainer`: the object a reference slot holds. -/
  objectValue : Ptr → FProperty → Option Ptr
  /-- Method `ContainerPtrToValuePtr`: the address of a slot inside its container. -/
  valuePtr : Ptr → FProperty → Ptr

/-- Routine `FindFProperty<FProperty>(Scope, FName(Segment))`: the first declared
property whose name equals the segment as an `FName`. -/
def FindFProperty (h : Host) (scope : UStruct) (Segment : String) : Option FProperty :=
  scope.props.find? (fun p => h.fnameEq p.name Segment)

/-- Name of the `FProperty` subclass (`CurrentProperty->GetClass()->GetName()`). -/
def PropKind.className : PropKind → String
  | .bool => "BoolProperty"
  | .str => "StrProperty"
  | .name => "NameProperty"
  | .float => "FloatProperty"
  | .double => "DoubleProperty"
  | .int32 => "IntProperty"
  | .int64 => "Int64Property"
  | .byte _ => "ByteProperty"
  | .enum _ _ => "EnumProperty"
  | .object => "ObjectProperty"
  | .softObject => "SoftObjectProperty"
  | .softClass => "SoftClassProperty"
  | .struct _ _ => "StructProperty"
  | .array _ => "ArrayProperty"
  | .map _ _ => "MapProperty"
  | .set _ => "SetProperty"
  | .other cn => cn

/-- The scope `StructProp->Struct` of a struct property. -/
def structScope (typeName : String) (fields : List (String × PropKind)) : UStruct :=
  ⟨typeName, fields.map (fun f => ⟨f.1, f.2⟩)⟩

/-- Message of a failed lookup (source lines 1890-1892). -/
def notFoundMsg (Segment scopeName : String) (pos total : Nat) : String :=
  "Property '" ++ Segment ++ "' not found in scope '" ++ scopeName ++ "' (segment " ++
    toString pos ++ " of " ++ toString total ++ ")"

/-- Message of a null object reference on the way (source lines 1908-1910). -/
def nullObjectMsg (Segment : String) (pos total : Nat) : String :=
  "Object property '" ++ Segment ++ "' is null (segment " ++ toString pos ++ " of " ++
    toString total ++ ")"

/-- Message of a property that cannot be entered (source lines 1921-1923). -/
def cannotTraverseMsg (Segment className : String) : String :=
  "Cannot traverse into property '" ++ Segment ++ "' of type '" ++ className ++ "'"

/-- What a call of the resolver leaves behind: the returned property and the two
out-parameters. -/
structure ResolveResult (Ptr : Type) where
  property : Option FProperty
  OutContainerPtr : Option Ptr
  OutError : String

/-- The segment loop `for (i = 0; i < PathSegments.Num(); ++i)`.  The first argument counts
the iterations that remain, `PathSegments.Num() - i`; when none remains the loop is left
and the function ends on its last two lines. -/
def resolveLoop {Ptr : Type} (h : Host) (M : Memory Ptr) (PathSegments : List String) :
    Nat → Nat → UStruct → Ptr → ResolveResult Ptr
  | 0, _, _, _ => ⟨none, none, "Unexpected end of property path resolution"⟩
  | remaining + 1, i, CurrentTypeScope, CurrentContainer =>
    let Segment := PathSegments.getD i ""
    let bIsLastSegment := decide (i = PathSegments.length - 1)
    match FindFProperty h CurrentTypeScope Segment with
    | none =>
      ⟨none, none, notFoundMsg Segment CurrentTypeScope.name (i + 1) PathSegments.length⟩
    | some CurrentProperty =>
      if bIsLastSegment then ⟨some CurrentProperty, some CurrentContainer, ""⟩
      else
        match CurrentProperty.kind with
        | .object =>
          match M.objectValue CurrentContainer CurrentProperty with
          | none => ⟨none, none, nullObjectMsg Segment (i + 1) PathSegments.length⟩
          | some NextObject =>
            resolveLoop h M PathSegments remaining (i + 1) (M.classOf NextObject) NextObject
        | .struct typeName fields =>
          resolveLoop h M PathSegments remaining (i + 1) (structScope typeName fields)
            (M.valuePtr CurrentContainer CurrentProperty)
        | k => ⟨none, none, cannotTraverseMsg Segment k.className⟩

/-- Function `ResolveNestedPropertyPath`.  The two out-parameters come in with the
caller's contents and are overwritten on entry. -/
def ResolveNestedPropertyPath {Ptr : Type} (h : Host) (M : Memory Ptr)
    (RootObject : Option Ptr) (PropertyPath : String)
    (OutContainerPtr : Option Ptr) (OutError : String) : ResolveResult Ptr :=
  let _entryError := OutError
  let _entryContainer := OutContainerPtr
  match RootObject with
  | none => ⟨none, none, "Root object is null"⟩
  | some root =>
    if PropertyPath = "" then ⟨none, none, "Property path is empty"⟩
    else
      let PathSegments := ParseIntoArray PropertyPath '.'
      if PathSegments.length = 0 then ⟨none, none, "Invalid property path format"⟩
      else resolveLoop h M PathSegments PathSegments.length 0 (M.classOf root) root

/-! ## JSON field accessors -/

/-- Method `FJsonObject::TryGetField`: the value stored under the field name. -/
def TryGetField : List (String × JsonValue) → String → Option JsonValue
  | [], _ => none
  | (k, v) :: rest, f => if k = f then some v else TryGetField rest f

/-- Function `GetJsonStringField`; a null or invalid `Obj` is `none`. -/
def GetJsonStringField (h : Host) (Obj : Option (List (String × JsonValue)))
    (Field : String) (Default : String) : String :=
  match Obj with
  | some o =>
    match (TryGetField o Field).bind (TryGetString h) with
    | some Value => Value
    | none => Default
  | none => Default

/-- Function `GetJsonNumberField`. -/
def GetJsonNumberField (h : Host) (Obj : Option (List (String × JsonValue)))
    (Field : String) (Default : ℚ) : ℚ :=
  match Obj with
  | some o =>
    match (TryGetField o Field).bind (TryGetNumber h) with
    | some Value => Value
    | none => Default
  | none => Default

/-- Function `GetJsonBoolField`. -/
def GetJsonBoolField (h : Host) (Obj : Option (List (String × JsonValue)))
    (Field : String) (Default : Bool) : Bool :=
  match Obj with
  | some o =>
    match (TryGetField o Field).bind (TryGetBool h) with
    | some Value => Value
    | none => Default
  | none => Default

/-- Function `GetJsonIntField`: the default goes through `double`, the field is read as a
`double`, and the result is cast to `int32`. -/
def GetJsonIntField (h : Host) (Obj : Option (List (String × JsonValue)))
    (Field : String) (Default : Int) : Int :=
  let Value : ℚ := (Default : ℚ)
  match Obj with
  | some o =>
    match (TryGetField o Field).bind (TryGetNumber h) with
    | some x => doubleToInt32 h x
    | none => doubleToInt32 h Value
  | none => doubleToInt32 h Value

/-! ## Sanitizers and JSON object extraction -/

/-- Replacement `FString::Replace` of a one-character pattern by `_`. -/
def replaceCharByUnderscore (c : Char) (s : List Char) : List Char :=
  s.map (fun x => if x = c then '_' else x)

/-- Test `FString::Contains` for the pattern made of the character `a` twice. -/
def containsDouble (a : Char) : List Char → Bool
  | [] => false
  | x :: tl =>
    match tl with
    | [] => false
    | y :: _ => (x == a && y == a) || containsDouble a tl

/-- The scan of `replaceDouble`; `pending` tells that the character just read was an
`a` which is still waiting for its partner. -/
def replaceDoubleScan (a : Char) (repl : List Char) : Bool → List Char → List Char
  | false, [] => []
  | true, [] => [a]
  | false, x :: tl =>
    if x = a then replaceDoubleScan a repl true tl else x :: replaceDoubleScan a repl false tl
  | true, x :: tl =>
    if x = a then repl ++ replaceDoubleScan a repl false tl
    else a :: x :: replaceDoubleScan a repl false tl

/-- Replacement `FString::Replace` of the pattern `a a` by `repl`, scanning left to right
without overlap. -/
def replaceDouble (a : Char) (repl : List Char) (s : List Char) : List Char :=
  replaceDoubleScan a repl false s

/-- The loop `while (S.Contains(aa)) S = S.Replace(aa, a)`; every round shortens the
string, so as many rounds as the string is long are enough. -/
def collapseDouble (a : Char) : Nat → List Char → List Char
  | 0, s => s
  | fuel + 1, s =>
    if containsDouble a s then collapseDouble a fuel (replaceDouble a [a] s) else s

/-- Method `FString::TrimStartAndEnd`. -/
def trimStartAndEnd (s : List Char) : List Char :=
  ((s.dropWhile Char.isWhitespace).reverse.dropWhile Char.isWhitespace).reverse

/-- Test `FString::StartsWith`, which ignores letter case unless told otherwise. -/
def startsWith (s pre : List Char) : Bool :=
  (s.take pre.length).map Char.toLower == pre.map Char.toLower

/-- The characters of the array `InvalidChars` (source lines 328-333). -/
def InvalidChars : List Char :=
  ['@', '#', '%', '$', '&', '*', '(', ')', '+', '=', '[', ']',
   Char.ofNat 123, Char.ofNat 125, '<', '>', '?', '|',
   Char.ofNat 92, ':', '~', '!', ' ']

/-- Function `SanitizeAssetName`. -/
def SanitizeAssetName (InName : String) : String :=
  if InName = "" then "Asset"
  else
    let s := trimStartAndEnd InName.toList
    let s := replaceCharByUnderscore ';' s
    let s := replaceCharByUnderscore (Char.ofNat 39) s
    let s := replaceCharByUnderscore (Char.ofNat 34) s
    let s := replaceDouble '-' ['_'] s
    let s := replaceCharByUnderscore (Char.ofNat 96) s
    let s := InvalidChars.foldl (fun acc C => replaceCharByUnderscore C acc) s
    let s := collapseDouble '_' s.length s
    let s := s.dropWhile (fun x => x == '_')
    let s := (s.reverse.dropWhile (fun x => x == '_')).reverse
    if s = [] then "Asset"
    else
      let s := if !(s.headD ' ').isAlpha && s.headD ' ' != '_' then "Asset_".toList ++ s
        else s
      let s := if s.length > 64 then s.take 64 else s
      String.mk s

/-- Function `SanitizeProjectRelativePath`; the log lines are not modelled. -/
def SanitizeProjectRelativePath (h : Host) (InPath : String) : String :=
  if InPath = "" then ""
  else if InPath.length ≥ 2 ∧ InPath.toList.getD 1 ' ' = ':' then ""
  else
    let CleanPath := (h.normalizeFilename InPath).toList
    let CleanPath := CleanPath.map (fun x => if x = Char.ofNat 92 then '/' else x)
    let CleanPath := collapseDouble '/' CleanPath.length CleanPath
    if containsDouble '.' CleanPath then ""
    else
      let CleanPath := if !startsWith CleanPath ['/'] then '/' :: CleanPath else CleanPath
      let bValidRoot := startsWith CleanPath "/Game".toList ||
        startsWith CleanPath "/Engine".toList || startsWith CleanPath "/Script".toList
      if !bValidRoot then
        let Segments := parseScan '/' CleanPath []
        let bLooksLikePluginPath := decide (Segments.length ≥ 3) &&
          decide (Segments.length ≥ 2) && equalsIgnoreCase (Segments.getD 1 "") "Content"
        if !bLooksLikePluginPath then "" else String.mk CleanPath
      else String.mk CleanPath

/-- The scan of `ExtractTopLevelJsonObjects`: `i` is the index of the next character,
`Start` is `none` for `INDEX_NONE`. -/
def extractLoop (In : List Char) : List Char → Nat → Int → Option Nat → List String →
    List String
  | [], _, _, _, Results => Results
  | C :: rest, i, Depth, Start, Results =>
    if C = Char.ofNat 123 then
      extractLoop In rest (i + 1) (Depth + 1) (if Depth = 0 then some i else Start) Results
    else if C = Char.ofNat 125 then
      match decide (Depth - 1 = 0), Start with
      | true, some st =>
        extractLoop In rest (i + 1) (Depth - 1) none
          (Results ++ [String.mk ((In.drop st).take (i - st + 1))])
      | _, _ => extractLoop In rest (i + 1) (Depth - 1) Start Results
    else extractLoop In rest (i + 1) Depth Start Results

/-- Function `ExtractTopLevelJsonObjects`. -/
def ExtractTopLevelJsonObjects (In : String) : List String :=
  extractLoop In.toList In.toList 0 0 none []

/-! ## A concrete host for examples

The JSON coercions and the name comparison follow the engine (`FJsonValueNumber`,
`FJsonValueString`, `FJsonValueBoolean`, `FName`); the loaders know no object, the
JSON parser knows the one text of the examples, the converter writes the fields it can
convert, in declaration order, until one fails, every number of the examples is taken to
be exactly representable as a `float`, and a conversion of a `double` that does not fit
the integer type gives the least value of that type. -/

/-- A struct converter that fills string, bool and double fields from JSON fields of the
same name and gives up at the first field whose JSON value has another type. -/
def sampleJsonObjectToUStruct (obj : List (String × JsonValue)) :
    List (String × PropKind) → Container → Bool × Container
  | [], c => (true, c)
  | (f, k) :: rest, c =>
    match TryGetField obj f, k with
    | none, _ => sampleJsonObjectToUStruct obj rest c
    | some (.number n), .double => sampleJsonObjectToUStruct obj rest (c.set f (.double n))
    | some (.string t), .str => sampleJsonObjectToUStruct obj rest (c.set f (.str t))
    | some (.boolean b), .bool => sampleJsonObjectToUStruct obj rest (c.set f (.bool b))
    | some _, _ => (false, c)

/-- The number that the decimal digits at the head of a text denote. -/
def leadingDigits : List Char → Nat → Nat
  | [], acc => acc
  | c :: cs, acc => if c.isDigit then leadingDigits cs (acc * 10 + (c.toNat - 48)) else acc

/-- The C conversion of a text to an integer, for texts without leading blanks: an
optional minus sign and the decimal digits that follow; zero when there is none. -/
def sampleAtoi (s : String) : Int :=
  match s.toList with
  | '-' :: cs => -(leadingDigits cs 0 : Int)
  | cs => (leadingDigits cs 0 : Int)

/-- Test `FString::IsNumeric`, for unsigned whole numbers. -/
def sampleIsNumeric (s : String) : Bool :=
  !s.toList.isEmpty && s.toList.all Char.isDigit

/-- The host of the examples. -/
def sampleHost : Host where
  toFloat := fun x => x
  int64OutOfRange := fun _ => -9223372036854775808
  int32OutOfRange := fun _ => -2147483648
  uint8OutOfRange := fun _ => 0
  atod := fun s => (sampleAtoi s : ℚ)
  atoi64 := sampleAtoi
  atoi := sampleAtoi
  formatG := fun x => toString x
  tryGetNumberOther := fun v =>
    match v with
    | .boolean b => some (if b then 1 else 0)
    | .string s => if sampleIsNumeric s then some (sampleAtoi s : ℚ) else none
    | _ => none
  tryGetStringOther := fun v =>
    match v with
    | .number n => some (toString n)
    | .boolean b => some (if b then "true" else "false")
    | _ => none
  tryGetBoolOther := fun v =>
    match v with
    | .number n => some (decide (n ≠ 0))
    | .string s => some (equalsIgnoreCase s "true" || equalsIgnoreCase s "yes" ||
        equalsIgnoreCase s "on" || decide (sampleAtoi s ≠ 0))
    | _ => none
  normalizeFilename := fun s => s
  loadObject := fun _ => none
  staticLoadObject := fun _ => none
  pathName := fun o => "Object_" ++ toString o
  exportText := fun _ _ => "()"
  parseJsonObject := fun t =>
    if t = "\x7b\"A\":5,\"B\":[]\x7d" then some [("A", .number 5), ("B", .array [])]
    else none
  jsonObjectToUStruct := sampleJsonObjectToUStruct
  fnameEq := equalsIgnoreCase

end McpBridge

namespace McpBridge

/-! ## Descent along a path, as the specification words it -/

/-- One intermediate segment: it must name, in the current scope, an object reference
holding a non-null object (descend into that object and its class) or a struct (descend
to the address of the struct inside the current container, with the struct as scope). -/
def descendStep {Ptr : Type} (h : Host) (M : Memory Ptr) (scope : UStruct) (cur : Ptr)
    (seg : String) : Option (UStruct × Ptr) :=
  match FindFProperty h scope seg with
  | none => none
  | some p =>
    match p.kind with
    | .object => (M.objectValue cur p).map (fun o => (M.classOf o, o))
    | .struct typeName fields => some (structScope typeName fields, M.valuePtr cur p)
    | _ => none

/-- The scope and container reached by descending through the given segments. -/
def descend {Ptr : Type} (h : Host) (M : Memory Ptr) :
    UStruct → Ptr → List String → Option (UStruct × Ptr)
  | scope, cur, [] => some (scope, cur)
  | scope, cur, seg :: rest =>
    match descendStep h M scope cur seg with
    | some next => descend h M next.1 next.2 rest
    | none => none

/-- The text `piece` occurs in the text `msg`. -/
def Mentions (msg piece : String) : Prop := ∃ a b : String, msg = a ++ piece ++ b

/-! ### An object graph for examples

Object 0 is an actor with a struct `Transform` (holding a float `Scale`), a float
`Health`, an object reference `Mesh` to object 1 and a null object reference `Owner`;
object 1 is a component with a float `Intensity`.  An address is an object together with
the names of the struct slots entered. -/

/-- The class of object 0. -/
def actorClass : UStruct :=
  ⟨"Actor", [⟨"Transform", .struct "Transform" [("Scale", .float)]⟩, ⟨"Health", .float⟩,
    ⟨"Mesh", .object⟩, ⟨"Owner", .object⟩]⟩

/-- The class of object 1. -/
def meshClass : UStruct := ⟨"MeshComponent", [⟨"Intensity", .float⟩]⟩

/-- The object graph of the examples. -/
def sampleMemory : Memory (Nat × List String) where
  classOf := fun a => if a.1 = 0 then actorClass else meshClass
  objectValue := fun a p =>
    if a.1 = 0 ∧ a.2 = [] ∧ p.name = "Mesh" then some (1, []) else none
  valuePtr := fun a p => (a.1, a.2 ++ [p.name])

/-! ### Notions used in the statements -/

/-- Apply followed by export on the same property: the apply succeeds with an empty
`OutError`, and the export of the resulting container is `out`. -/
def RoundTrips (h : Host) (c : Container) (p : FProperty) (v : JsonValue) (e : String)
    (out : JsonValue) : Prop :=
  ∃ c1 : Container,
    ApplyJsonValueToProperty h (some c) (some p) (some v) e = (true, "", some c1) ∧
    ExportPropertyToJsonValue h (some c1) (some p) = some out

/-- The kinds for which the export has a rule: all but `other`. -/
def PropKind.isSupported : PropKind → Bool
  | .other _ => false
  | _ => true

/-- Truncation toward zero, as the specification words it: the floor of a non-negative
number, the ceiling of a negative one. -/
def truncTowardZero (x : ℚ) : Int := if 0 ≤ x then ⌊x⌋ else ⌈x⌉

/-- The enum of the example, with members `A = 0` and `B = 1`. -/
def enumAB : UEnum := ⟨"EAB", [("A", 0), ("B", 1)]⟩

/-- The container of the example: a struct slot `S` with two double fields. -/
def structContainer : Container :=
  [("S", .struct [("A", .double 1), ("B", .double 2)])]

/-- The struct property of the example. -/
def structProperty : FProperty :=
  ⟨"S", .struct "Pair" [("A", .double), ("B", .double)]⟩

/-- The inner kinds for which the array branch of the apply has a conversion: String,
Name, Bool, Float, Double, Int32, Int64 and Byte. -/
def PropKind.hasArrayConversion : PropKind → Bool
  | .str => true
  | .name => true
  | .bool => true
  | .float => true
  | .double => true
  | .int32 => true
  | .int64 => true
  | .byte _ => true
  | _ => false

/-- An enum with a member of value -1 and a member of value 0. -/
def enumSigned : UEnum := ⟨"ESigned", [("Unset", -1), ("First", 0)]⟩

/-- An enum that registers its members under qualified names. -/
def enumScoped : UEnum := ⟨"EMode", [("EMode::Slow", 0), ("EMode::Fast", 1)]⟩

/-- The text of the last two lines of the resolver. -/
def unexpectedEndMsg : String := "Unexpected end of property path resolution"

/-! ## Auxiliary facts -/

theorem Container.get_set_same (c : Container) (n : String) (v : PropValue) :
    (c.set n v).get n = some v := by
  induction c with
  | nil => simp [Container.set, Container.get]
  | cons hd tl ih =>
    obtain ⟨k, x⟩ := hd
    by_cases hk : k = n
    · simp [Container.set, Container.get, hk]
    · simp [Container.set, Container.get, hk, ih]

theorem truncToInt_intCast (i : Int) : truncToInt (i : ℚ) = i := by
  simp [truncToInt]

theorem toInt32_of_range (i : Int) (lo : -2147483648 ≤ i) (hi : i < 2147483648) :
    toInt32 i = i := by
  unfold toInt32 wrapSigned
  norm_num
  omega

theorem toInt64_of_range (h : Host) (i : Int) (lo : -9223372036854775808 ≤ i)
    (hi : i < 9223372036854775808) : toInt64 h (i : ℚ) = i := by
  unfold toInt64
  rw [truncToInt_intCast, if_pos ⟨lo, hi⟩]

theorem truncToInt_eq_truncTowardZero (x : ℚ) : truncToInt x = truncTowardZero x := by
  unfold truncToInt truncTowardZero
  have hden : (0 : Int) ≤ (x.den : Int) := Int.ofNat_nonneg _
  by_cases hx : 0 ≤ x
  · have hnum : 0 ≤ x.num := Rat.num_nonneg.mpr hx
    rw [if_pos hx, Int.tdiv_eq_ediv hnum hden, Rat.floor_def]
  · have hneg : 0 ≤ -x := by linarith
    have hnum : 0 ≤ (-x).num := Rat.num_nonneg.mpr hneg
    have hfl : ⌊-x⌋ = (-x).num / ((-x).den : Int) := Rat.floor_def
    have hcl : ⌈x⌉ = -⌊-x⌋ := by rw [Int.floor_neg, neg_neg]
    rw [if_neg hx, hcl, hfl, ← Int.tdiv_eq_ediv hnum (Int.ofNat_nonneg _), Rat.num_neg_eq_neg_num,
      Rat.neg_den, Int.neg_tdiv, neg_neg]

theorem truncTowardZero_range (x : ℚ) (lo : -2147483648 < x) (hi : x < 2147483648) :
    -2147483648 ≤ truncTowardZero x ∧ truncTowardZero x < 2147483648 := by
  unfold truncTowardZero
  by_cases hx : 0 ≤ x
  · rw [if_pos hx]
    have h0 : (0 : Int) ≤ ⌊x⌋ := Int.floor_nonneg.mpr hx
    have h1 : ((⌊x⌋ : Int) : ℚ) ≤ x := Int.floor_le x
    have h2 : ((⌊x⌋ : Int) : ℚ) < ((2147483648 : Int) : ℚ) := by
      push_cast
      linarith
    have h3 : ⌊x⌋ < 2147483648 := by exact_mod_cast h2
    omega
  · rw [if_neg hx]
    have hx0 : x < 0 := lt_of_not_le hx
    have h0 : ⌈x⌉ ≤ 0 := Int.ceil_le.mpr (by exact_mod_cast hx0.le)
    have h1 : x ≤ ((⌈x⌉ : Int) : ℚ) := Int.le_ceil x
    have h2 : ((-2147483648 : Int) : ℚ) < ((⌈x⌉ : Int) : ℚ) := by
      push_cast
      linarith
    have h3 : -2147483648 < ⌈x⌉ := by exact_mod_cast h2
    omega

theorem doubleToInt32_eq_truncTowardZero (h : Host) (x : ℚ) (lo : -2147483648 < x)
    (hi : x < 2147483648) : doubleToInt32 h x = truncTowardZero x := by
  have hr := truncTowardZero_range x lo hi
  unfold doubleToInt32
  rw [truncToInt_eq_truncTowardZero, if_pos hr]

theorem int32_default_passage (h : Host) (d : Int) (lo : -2147483648 ≤ d)
    (hi : d < 2147483648) : doubleToInt32 h (d : ℚ) = d := by
  unfold doubleToInt32
  rw [truncToInt_intCast, if_pos ⟨lo, hi⟩]

theorem doubleToInt32_of_range (h : Host) (x : ℚ) (lo : -2147483648 ≤ truncToInt x)
    (hi : truncToInt x < 2147483648) : doubleToInt32 h x = truncToInt x := by
  unfold doubleToInt32
  rw [if_pos ⟨lo, hi⟩]

/-- The second lookup of `enumValueOfString` at work: the bare name `Fast` is not a
registered name of the scoped enum, its qualified form is. -/
theorem enumValueOfString_scoped :
    enumScoped.GetValueByNameString "Fast" = INDEX_NONE ∧
    enumValueOfString enumScoped "Fast" = 1 ∧
    enumValueOfString enumScoped "EMode::Fast" = 1 := by
  decide

theorem fillArray_supported (h : Host) (inner : PropKind) (conv : JsonValue → PropValue)
    (hconv : ∀ V, convertArrayElem h inner V = some (conv V)) (Src : List JsonValue)
    (acc : List PropValue) :
    fillArray h inner Src acc = (true, acc ++ Src.map conv) := by
  induction Src generalizing acc with
  | nil => simp [fillArray]
  | cons V rest ih => simp [fillArray, hconv, ih]

theorem convertArrayElem_int32_number (h : Host) (n : ℚ) :
    convertArrayElem h .int32 (.number n) = some (.int32 (doubleToInt32 h n)) := by
  simp [convertArrayElem, JsonValue.type, AsNumber, TryGetNumber]

theorem fillArray_int32_numbers (h : Host) (B : List ℚ) (acc : List PropValue) :
    fillArray h .int32 (B.map JsonValue.number) acc
      = (true, acc ++ B.map (fun n => PropValue.int32 (doubleToInt32 h n))) := by
  induction B generalizing acc with
  | nil => simp [fillArray]
  | cons n rest ih =>
    simp only [List.map_cons, fillArray, convertArrayElem_int32_number]
    rw [ih]
    simp

theorem apply_int32_array (h : Host) (c : Container) (name : String) (B : List ℚ)
    (e : String) :
    ApplyJsonValueToProperty h (some c) (some ⟨name, .array .int32⟩)
        (some (.array (B.map JsonValue.number))) e
      = (true, "", some (c.set name
          (.array (B.map (fun n => PropValue.int32 (doubleToInt32 h n)))))) := by
  simp [ApplyJsonValueToProperty, applyCore, fillArray_int32_numbers]

/-! ## The claims -/

/-- C1: on an Int32 array property, applying a JSON array `A` of numbers and then a JSON
array `B` of numbers succeeds both times, and afterwards the array holds exactly the
converted elements of `B`, in the order of `B` and as many as `B` has, whatever `A` was
(clear, then fill).  The converted element is what the `(int32)` cast of the code makes
of the number: the number cut off toward zero when it lies within the 32-bit range, and
what the platform yields for the undefined conversion otherwise.  Applying `[1, 2]` and
then `[9]` leaves `[9]`. -/
theorem C1_array_clear_then_fill (h : Host) (c : Container) (name : String)
    (A B : List ℚ) (e1 e2 : String) :
    ∃ c1 c2 : Container,
      ApplyJsonValueToProperty h (some c) (some ⟨name, .array .int32⟩)
          (some (.array (A.map JsonValue.number))) e1 = (true, "", some c1) ∧
      ApplyJsonValueToProperty h (some c1) (some ⟨name, .array .int32⟩)
          (some (.array (B.map JsonValue.number))) e2 = (true, "", some c2) ∧
      c2.get name = some (.array (B.map (fun n => PropValue.int32 (doubleToInt32 h n)))) ∧
      (readArray (c2.get name)).length = B.length ∧
      (∀ n ∈ B, -2147483648 < n → n < 2147483648 →
        doubleToInt32 h n = truncTowardZero n) ∧
      ExportPropertyToJsonValue h (some c2) (some ⟨name, .array .int32⟩)
        = some (.array (B.map (fun n => JsonValue.number (doubleToInt32 h n)))) ∧
      (A = [1, 2] → B = [9] → c2.get name = some (.array [.int32 9])) := by
  refine ⟨_, _, apply_int32_array h c name A e1, apply_int32_array h _ name B e2,
    ?_, ?_, ?_, ?_, ?_⟩
  · exact Container.get_set_same _ _ _
  · simp [Container.get_set_same, readArray]
  · intro n _ lo hi
    exact doubleToInt32_eq_truncTowardZero h n lo hi
  · simp [ExportPropertyToJsonValue, exportCore, Container.get_set_same, readArray,
      exportArrayElem, readInt32, Function.comp_def]
  · intro _ hB
    subst hB
    rw [Container.get_set_same]
    have h9 : doubleToInt32 h (9 : ℚ) = 9 := by
      have := int32_default_passage h 9 (by decide) (by decide)
      simpa using this
    simp [h9]

/-- Witness of C1 at the example of the claim. -/
theorem C1_array_clear_then_fill_witness :
    ∃ c1 c2 : Container,
      ApplyJsonValueToProperty sampleHost (some []) (some ⟨"Ints", .array .int32⟩)
          (some (.array ([1, 2].map JsonValue.number))) "" = (true, "", some c1) ∧
      ApplyJsonValueToProperty sampleHost (some c1) (some ⟨"Ints", .array .int32⟩)
          (some (.array ([9].map JsonValue.number))) "" = (true, "", some c2) ∧
      c2.get "Ints" = some (.array [.int32 9]) := by
  obtain ⟨c1, c2, h1, h2, _, _, _, _, h6⟩ :=
    C1_array_clear_then_fill sampleHost [] "Ints" [1, 2] [9] "" ""
  exact ⟨c1, c2, h1, h2, h6 rfl rfl⟩

/-- C2: for a Bool, String, Int32, Float or Double property and a legal value of that kind
(an integer of the signed 32-bit range for Int32, a number that the conversion to `float`
leaves as it is for Float, any number for Double), applying the JSON encoding of the value
succeeds and exporting the property afterwards gives back that encoding. -/
theorem C2_scalar_round_trip (h : Host) (c : Container) (name : String) (e : String) :
    (∀ b : Bool, RoundTrips h c ⟨name, .bool⟩ (.boolean b) e (.boolean b)) ∧
    (∀ s : String, RoundTrips h c ⟨name, .str⟩ (.string s) e (.string s)) ∧
    (∀ i : Int, -2147483648 ≤ i → i < 2147483648 →
      RoundTrips h c ⟨name, .int32⟩ (.number (i : ℚ)) e (.number (i : ℚ))) ∧
    (∀ x : ℚ, h.toFloat x = x → RoundTrips h c ⟨name, .float⟩ (.number x) e (.number x)) ∧
    (∀ x : ℚ, RoundTrips h c ⟨name, .double⟩ (.number x) e (.number x)) := by
  refine ⟨?_, ?_, ?_, ?_, ?_⟩
  · intro b
    exact ⟨c.set name (.bool b), by simp [ApplyJsonValueToProperty, applyCore],
      by simp [ExportPropertyToJsonValue, exportCore, Container.get_set_same, readBool]⟩
  · intro s
    exact ⟨c.set name (.str s), by simp [ApplyJsonValueToProperty, applyCore],
      by simp [ExportPropertyToJsonValue, exportCore, Container.get_set_same, readStr]⟩
  · intro i lo hi
    refine ⟨c.set name (.int32 (toInt32 (toInt64 h (i : ℚ)))),
      by simp [ApplyJsonValueToProperty, applyCore], ?_⟩
    have h64 : toInt64 h (i : ℚ) = i := toInt64_of_range h i (by omega) (by omega)
    simp [ExportPropertyToJsonValue, exportCore, Container.get_set_same, readInt32, h64,
      toInt32_of_range i lo hi]
  · intro x hx
    exact ⟨c.set name (.float (h.toFloat x)), by simp [ApplyJsonValueToProperty, applyCore],
      by simp [ExportPropertyToJsonValue, exportCore, Container.get_set_same, readFloat, hx]⟩
  · intro x
    exact ⟨c.set name (.double x), by simp [ApplyJsonValueToProperty, applyCore],
      by simp [ExportPropertyToJsonValue, exportCore, Container.get_set_same, readDouble]⟩

/-- Witness of C2: the Int32 value 7 and the Float value 3 round-trip. -/
theorem C2_scalar_round_trip_witness :
    RoundTrips sampleHost [("N", .int32 0)] ⟨"N", .int32⟩ (.number ((7 : Int) : ℚ)) ""
      (.number ((7 : Int) : ℚ)) ∧
    RoundTrips sampleHost [("N", .int32 0)] ⟨"N", .float⟩ (.number 3) "" (.number 3) :=
  ⟨(C2_scalar_round_trip sampleHost [("N", .int32 0)] "N" "").2.2.1 7 (by decide) (by decide),
   (C2_scalar_round_trip sampleHost [("N", .int32 0)] "N" "").2.2.2.1 3 rfl⟩

/-! ### Enum tables -/

theorem find_of_nodup_keys {α β : Type} [DecidableEq α] (l : List (α × β)) (a : α) (b : β)
    (hnd : (l.map Prod.fst).Nodup) (hm : (a, b) ∈ l) :
    l.find? (fun m => decide (m.1 = a)) = some (a, b) := by
  induction l with
  | nil => simp at hm
  | cons hd tl ih =>
    simp only [List.map_cons, List.nodup_cons] at hnd
    rcases List.mem_cons.mp hm with hEq | hIn
    · subst hEq
      simp [List.find?]
    · have hne : hd.1 ≠ a := by
        intro hcontra
        apply hnd.1
        rw [hcontra]
        exact List.mem_map_of_mem Prod.fst hIn
      simp [List.find?, hne, ih hnd.2 hIn]

theorem find_of_nodup_vals {α β : Type} [DecidableEq β] (l : List (α × β)) (a : α) (b : β)
    (hnd : (l.map Prod.snd).Nodup) (hm : (a, b) ∈ l) :
    l.find? (fun m => decide (m.2 = b)) = some (a, b) := by
  induction l with
  | nil => simp at hm
  | cons hd tl ih =>
    simp only [List.map_cons, List.nodup_cons] at hnd
    rcases List.mem_cons.mp hm with hEq | hIn
    · subst hEq
      simp [List.find?]
    · have hne : hd.2 ≠ b := by
        intro hcontra
        apply hnd.1
        rw [hcontra]
        exact List.mem_map_of_mem Prod.snd hIn
      simp [List.find?, hne, ih hnd.2 hIn]

theorem GetValueByNameString_member (E : UEnum) (n : String) (v : Int)
    (hnd : (E.members.map Prod.fst).Nodup) (hm : (n, v) ∈ E.members) :
    E.GetValueByNameString n = v := by
  simp [UEnum.GetValueByNameString, find_of_nodup_keys E.members n v hnd hm]

theorem GetNameStringByValue_member (E : UEnum) (n : String) (v : Int)
    (hnd : (E.members.map Prod.snd).Nodup) (hm : (n, v) ∈ E.members) :
    E.GetNameStringByValue v = n := by
  simp [UEnum.GetNameStringByValue, find_of_nodup_vals E.members n v hnd hm]

theorem IsValidEnumValue_member (E : UEnum) (n : String) (v : Int)
    (hm : (n, v) ∈ E.members) : E.IsValidEnumValue v = true := by
  simp only [UEnum.IsValidEnumValue, List.any_eq_true]
  exact ⟨(n, v), hm, by simp⟩

theorem toUInt8_of_range (v : Int) (lo : 0 ≤ v) (hi : v ≤ 255) : ((toUInt8 v : Nat) : Int) = v := by
  unfold toUInt8
  omega

theorem enumValueOfString_member (E : UEnum) (n : String) (v : Int)
    (hnd : (E.members.map Prod.fst).Nodup) (hm : (n, v) ∈ E.members) (hv : v ≠ INDEX_NONE) :
    enumValueOfString E n = v := by
  simp [enumValueOfString, GetValueByNameString_member E n v hnd hm, hv]

/-- C3: for an enum whose members have distinct names and distinct values in 0..255, and
a member `n = v` of it (member names are identifiers, hence non-empty), on an enum-typed
Byte property and on an Enum property alike: applying `String(n)` and exporting gives
`String(n)`, and applying `Number(v)` and exporting gives `String(n)` too. -/
theorem C3_enum_symmetry (h : Host) (c : Container) (name e : String) (E : UEnum)
    (n : String) (v : Int)
    (hnames : (E.members.map Prod.fst).Nodup) (hvals : (E.members.map Prod.snd).Nodup)
    (hrange : ∀ m ∈ E.members, 0 ≤ m.2 ∧ m.2 ≤ 255)
    (hm : (n, v) ∈ E.members) (hne : n ≠ "") :
    RoundTrips h c ⟨name, .byte (some E)⟩ (.string n) e (.string n) ∧
    RoundTrips h c ⟨name, .byte (some E)⟩ (.number (v : ℚ)) e (.string n) ∧
    RoundTrips h c ⟨name, .enum (some E) true⟩ (.string n) e (.string n) ∧
    RoundTrips h c ⟨name, .enum (some E) true⟩ (.number (v : ℚ)) e (.string n) := by
  have hr := hrange (n, v) hm
  have hv : v ≠ INDEX_NONE := by
    simp only [INDEX_NONE]
    omega
  have hlook := enumValueOfString_member E n v hnames hm hv
  have hname := GetNameStringByValue_member E n v hvals hm
  have hvalid := IsValidEnumValue_member E n v hm
  have h64 : toInt64 h (v : ℚ) = v := toInt64_of_range h v (by omega) (by omega)
  have h8 : ((toUInt8 v : Nat) : Int) = v := toUInt8_of_range v hr.1 hr.2
  refine ⟨⟨c.set name (.byte (toUInt8 v)), ?_, ?_⟩, ⟨c.set name (.byte (toUInt8 v)), ?_, ?_⟩,
    ⟨c.set name (.enumVal v), ?_, ?_⟩, ⟨c.set name (.enumVal v), ?_, ?_⟩⟩
  · simp [ApplyJsonValueToProperty, applyCore, hlook, hv]
  · simp [ExportPropertyToJsonValue, exportCore, Container.get_set_same, readByte, h8,
      hname, hne]
  · simp [ApplyJsonValueToProperty, applyCore, h64, hvalid]
  · simp [ExportPropertyToJsonValue, exportCore, Container.get_set_same, readByte, h8,
      hname, hne]
  · simp [ApplyJsonValueToProperty, applyCore, hlook, hv]
  · simp [ExportPropertyToJsonValue, exportCore, Container.get_set_same, readEnum,
      hname, hne]
  · simp [ApplyJsonValueToProperty, applyCore, h64, hvalid]
  · simp [ExportPropertyToJsonValue, exportCore, Container.get_set_same, readEnum,
      hname, hne]

/-- Witness of C3: with members `A = 0` and `B = 1`, both `String("B")` and `Number(1)`
export as `String("B")`. -/
theorem C3_enum_symmetry_witness :
    RoundTrips sampleHost [] ⟨"Mode", .byte (some enumAB)⟩ (.string "B") "" (.string "B") ∧
    RoundTrips sampleHost [] ⟨"Mode", .byte (some enumAB)⟩ (.number ((1 : Int) : ℚ)) ""
      (.string "B") ∧
    RoundTrips sampleHost [] ⟨"Mode", .enum (some enumAB) true⟩ (.string "B") ""
      (.string "B") ∧
    RoundTrips sampleHost [] ⟨"Mode", .enum (some enumAB) true⟩ (.number ((1 : Int) : ℚ)) ""
      (.string "B") :=
  C3_enum_symmetry sampleHost [] "Mode" "" enumAB "B" 1 (by decide) (by decide)
    (by decide) (by decide) (by decide)

/-- C4: on a struct property of type `Vector` (resp. `Rotator`), applying a JSON array of
three numbers that the conversion to `float` leaves as they are succeeds, and exporting
the property afterwards gives exactly that array, in the order x, y, z (resp. pitch, yaw,
roll). -/
theorem C4_struct_shorthand (h : Host) (c : Container) (name e : String)
    (fields : List (String × PropKind)) (x y z : ℚ)
    (hx : h.toFloat x = x) (hy : h.toFloat y = y) (hz : h.toFloat z = z) :
    RoundTrips h c ⟨name, .struct "Vector" fields⟩ (.array [.number x, .number y, .number z])
      e (.array [.number x, .number y, .number z]) ∧
    RoundTrips h c ⟨name, .struct "Rotator" fields⟩
      (.array [.number x, .number y, .number z]) e
      (.array [.number x, .number y, .number z]) := by
  have hV : equalsIgnoreCase "Vector" "Vector" = true := by decide
  have hRV : equalsIgnoreCase "Rotator" "Vector" = false := by decide
  have hR : equalsIgnoreCase "Rotator" "Rotator" = true := by decide
  refine ⟨⟨c.set name (.struct [("X", .double x), ("Y", .double y), ("Z", .double z)]),
      ?_, ?_⟩,
    ⟨c.set name (.struct [("Pitch", .double x), ("Yaw", .double y), ("Roll", .double z)]),
      ?_, ?_⟩⟩
  · simp [ApplyJsonValueToProperty, applyCore, hV, AsNumber, TryGetNumber, hx, hy, hz]
  · simp [ExportPropertyToJsonValue, exportCore, Container.get_set_same, readStruct, hV,
      Container.get, readDouble]
  · simp [ApplyJsonValueToProperty, applyCore, hRV, hR, AsNumber, TryGetNumber, hx, hy, hz]
  · simp [ExportPropertyToJsonValue, exportCore, Container.get_set_same, readStruct, hRV,
      hR, Container.get, readDouble]

/-- Witness of C4: `[1, 2, 3]` round-trips on a `Vector` and on a `Rotator`. -/
theorem C4_struct_shorthand_witness :
    RoundTrips sampleHost [] ⟨"Location", .struct "Vector" []⟩
      (.array [.number 1, .number 2, .number 3]) "" (.array [.number 1, .number 2, .number 3]) ∧
    RoundTrips sampleHost [] ⟨"Location", .struct "Rotator" []⟩
      (.array [.number 1, .number 2, .number 3]) "" (.array [.number 1, .number 2, .number 3]) :=
  C4_struct_shorthand sampleHost [] "Location" "" [] 1 2 3 rfl rfl rfl

/-- Counterexample to C5 as stated: on a Float property holding 5, applying
`String("abc")` returns `true` with an empty `OutError` and overwrites the value by the
result of `Atod`, which is 0. -/
theorem C5_counterexample :
    ApplyJsonValueToProperty sampleHost (some [("Speed", .float 5)]) (some ⟨"Speed", .float⟩)
        (some (.string "abc")) ""
      = (true, "", some [("Speed", .float 0)]) := by
  simp [ApplyJsonValueToProperty, applyCore, Container.set, sampleHost, sampleAtoi,
    leadingDigits]

/-- C5 as amended: on a Float, Double, Int32, Int64 or plain Byte property every JSON
String is accepted, whether its text is a number or not: the call returns `true`, leaves
`OutError` empty and stores what `Atod` (Float, Double) or `Atoi64` (Int32, Int64, Byte)
makes of the text, narrowed to the width of the property.  The call fails, with a
non-empty `OutError` and the container as it was, only for a value that is neither a
Number nor a String. -/
theorem C5_numeric_string_accepted (h : Host) (c : Container) (name e : String) :
    (∀ s : String,
      ApplyJsonValueToProperty h (some c) (some ⟨name, .float⟩) (some (.string s)) e
        = (true, "", some (c.set name (.float (h.toFloat (h.atod s))))) ∧
      ApplyJsonValueToProperty h (some c) (some ⟨name, .double⟩) (some (.string s)) e
        = (true, "", some (c.set name (.double (h.atod s)))) ∧
      ApplyJsonValueToProperty h (some c) (some ⟨name, .int32⟩) (some (.string s)) e
        = (true, "", some (c.set name (.int32 (toInt32 (h.atoi64 s))))) ∧
      ApplyJsonValueToProperty h (some c) (some ⟨name, .int64⟩) (some (.string s)) e
        = (true, "", some (c.set name (.int64 (h.atoi64 s)))) ∧
      ApplyJsonValueToProperty h (some c) (some ⟨name, .byte none⟩) (some (.string s)) e
        = (true, "", some (c.set name (.byte (toUInt8 (h.atoi64 s)))))) ∧
    (∀ (k : PropKind) (v : JsonValue),
      k = .float ∨ k = .double ∨ k = .int32 ∨ k = .int64 ∨ k = .byte none →
      v.type ≠ .Number → v.type ≠ .String →
      ∃ msg : String, msg ≠ "" ∧
        ApplyJsonValueToProperty h (some c) (some ⟨name, k⟩) (some v) e
          = (false, msg, some c)) := by
  refine ⟨fun s => ⟨?_, ?_, ?_, ?_, ?_⟩, ?_⟩
  · simp [ApplyJsonValueToProperty, applyCore]
  · simp [ApplyJsonValueToProperty, applyCore]
  · simp [ApplyJsonValueToProperty, applyCore]
  · simp [ApplyJsonValueToProperty, applyCore]
  · simp [ApplyJsonValueToProperty, applyCore]
  · intro k v hk hn hs
    rcases hk with hk | hk | hk | hk | hk <;> subst hk <;> cases v <;>
      simp [JsonValue.type] at hn hs <;>
      simp [ApplyJsonValueToProperty, applyCore]

/-- Witness of the amended C5: a Bool applied to an Int32 property is refused and the
container stays as it was. -/
theorem C5_numeric_string_accepted_witness :
    ∃ msg : String, msg ≠ "" ∧
      ApplyJsonValueToProperty sampleHost (some [("N", .int32 4)]) (some ⟨"N", .int32⟩)
          (some (.boolean true)) ""
        = (false, msg, some [("N", .int32 4)]) :=
  (C5_numeric_string_accepted sampleHost [("N", .int32 4)] "N" "").2 .int32 (.boolean true)
    (by simp) (by simp [JsonValue.type]) (by simp [JsonValue.type])

/-- Counterexample to C6 as stated: the property is a struct, the value a JSON String
whose text is a JSON object; the converter writes field `A`, rejects field `B`, the call
returns `false`, and the container is no longer what it was. -/
theorem C6_counterexample :
    ¬ ∀ (h : Host) (c : Container) (p : FProperty) (v : JsonValue) (e : String),
      (ApplyJsonValueToProperty h (some c) (some p) (some v) e).1 = false →
      ((∃ inner, p.kind = .array inner) ∧ v.type = .Array) ∨
      (ApplyJsonValueToProperty h (some c) (some p) (some v) e).2.2 = some c := by
  intro hall
  have hcase := hall sampleHost structContainer structProperty
    (.string "\x7b\"A\":5,\"B\":[]\x7d") ""
  simp [ApplyJsonValueToProperty, applyCore, structContainer, structProperty, sampleHost,
    sampleJsonObjectToUStruct, TryGetField, Container.get, Container.set, readStruct,
    JsonValue.type] at hcase

/-- C6 as amended: when `ApplyJsonValueToProperty` returns failure the container is
identical to what it was before the call, except when the property is an Array property
and the value a JSON Array (partial fill) or the property is a Struct property and the
value a JSON String (the struct converter has written into the struct before it gave
up); in particular a value that is not a JSON Array, applied to an Array property, fails
without clearing the elements. -/
theorem C6_failure_leaves_container (h : Host) (c : Container) (p : FProperty)
    (v : JsonValue) (e : String) :
    ((ApplyJsonValueToProperty h (some c) (some p) (some v) e).1 = false →
      ¬ ((∃ inner, p.kind = .array inner) ∧ v.type = .Array) →
      ¬ ((∃ tn fields, p.kind = .struct tn fields) ∧ v.type = .String) →
      (ApplyJsonValueToProperty h (some c) (some p) (some v) e).2.2 = some c) ∧
    ((∃ inner, p.kind = .array inner) → v.type ≠ .Array →
      ApplyJsonValueToProperty h (some c) (some p) (some v) e
        = (false, "Expected array for array property", some c)) := by
  obtain ⟨name, kind⟩ := p
  constructor
  · intro hfail harr hstruct
    cases kind with
    | byte en =>
      cases en <;> cases v <;>
        simp_all [ApplyJsonValueToProperty, applyCore, JsonValue.type] <;>
        split_ifs at hfail ⊢ <;> simp_all
    | enum en u =>
      cases en <;> cases u <;> cases v <;>
        simp_all [ApplyJsonValueToProperty, applyCore, JsonValue.type] <;>
        split_ifs at hfail ⊢ <;> simp_all
    | struct tn fields =>
      cases v <;> simp_all [ApplyJsonValueToProperty, applyCore, JsonValue.type]
      split at hfail
      · split_ifs at hfail ⊢
        all_goals simp_all
      · rfl
    | _ =>
      cases v <;>
        simp_all [ApplyJsonValueToProperty, applyCore, JsonValue.type] <;>
        split_ifs at hfail ⊢ <;> simp_all
  · rintro ⟨inner, hk⟩ hv
    simp only at hk
    subst hk
    cases v <;> simp_all [ApplyJsonValueToProperty, applyCore, JsonValue.type]

/-- Witness of the amended C6: a Number applied to an Int32 array property holding one
element fails and the element is still there. -/
theorem C6_failure_leaves_container_witness :
    ApplyJsonValueToProperty sampleHost (some [("Ints", .array [.int32 1])])
        (some ⟨"Ints", .array .int32⟩) (some (.number 3)) ""
      = (false, "Expected array for array property", some [("Ints", .array [.int32 1])]) :=
  (C6_failure_leaves_container sampleHost [("Ints", .array [.int32 1])]
    ⟨"Ints", .array .int32⟩ (.number 3) "").2 ⟨.int32, rfl⟩ (by simp [JsonValue.type])

/-! ### The segment loop -/

theorem resolveLoop_step {Ptr : Type} (h : Host) (M : Memory Ptr) (pre : List String)
    (seg : String) (post : List String) (scope : UStruct) (cur : Ptr) :
    resolveLoop h M (pre ++ seg :: post) (post.length + 1) pre.length scope cur =
      match FindFProperty h scope seg with
      | none =>
        ⟨none, none, notFoundMsg seg scope.name (pre.length + 1) (pre ++ seg :: post).length⟩
      | some p =>
        if post = [] then ⟨some p, some cur, ""⟩
        else
          match p.kind with
          | .object =>
            match M.objectValue cur p with
            | none =>
              ⟨none, none, nullObjectMsg seg (pre.length + 1) (pre ++ seg :: post).length⟩
            | some o =>
              resolveLoop h M (pre ++ seg :: post) post.length (pre.length + 1) (M.classOf o) o
          | .struct typeName fields =>
            resolveLoop h M (pre ++ seg :: post) post.length (pre.length + 1)
              (structScope typeName fields) (M.valuePtr cur p)
          | k => ⟨none, none, cannotTraverseMsg seg k.className⟩ := by
  have hseg : (pre ++ seg :: post).getD pre.length "" = seg := by
    rw [List.getD_eq_getElem?_getD, List.getElem?_append_right (le_refl _)]
    simp
  have hlast : (pre.length = (pre ++ seg :: post).length - 1) ↔ post = [] := by
    simp only [List.length_append, List.length_cons]
    constructor
    · intro hlen
      apply List.eq_nil_of_length_eq_zero
      omega
    · intro hp
      subst hp
      simp
  rw [resolveLoop]
  simp only [hseg]
  cases hfind : FindFProperty h scope seg with
  | none => rfl
  | some p =>
    by_cases hp : post = []
    · simp [hp]
    · have hnl : ¬ (pre.length = (pre ++ seg :: post).length - 1) := fun hc => hp (hlast.mp hc)
      simp only [hnl, hp, decide_False, if_false, Bool.false_eq_true]

theorem resolveLoop_descend {Ptr : Type} (h : Host) (M : Memory Ptr) (mid : List String) :
    ∀ (pre : List String) (seg : String) (post : List String) (scope : UStruct) (cur : Ptr)
      (target : UStruct × Ptr), descend h M scope cur mid = some target →
      resolveLoop h M (pre ++ mid ++ seg :: post) (mid.length + post.length + 1) pre.length
          scope cur
        = resolveLoop h M (pre ++ mid ++ seg :: post) (post.length + 1)
            (pre.length + mid.length) target.1 target.2 := by
  induction mid with
  | nil =>
    intro pre seg post scope cur target hd
    simp only [descend, Option.some.injEq] at hd
    subst hd
    simp
  | cons m rest ih =>
    intro pre seg post scope cur target hd
    have hlist : pre ++ m :: rest ++ seg :: post = pre ++ m :: (rest ++ seg :: post) := by simp
    have hlist2 : pre ++ m :: (rest ++ seg :: post) = (pre ++ [m]) ++ rest ++ seg :: post := by
      simp
    have hlen : (m :: rest).length + post.length + 1 = (rest ++ seg :: post).length + 1 := by
      simp only [List.length_cons, List.length_append]
      omega
    have hne : rest ++ seg :: post ≠ [] := by simp
    rw [hlist, hlen, resolveLoop_step]
    simp only [descend] at hd
    cases hstep : descendStep h M scope cur m with
    | none => simp [hstep] at hd
    | some next =>
      simp only [hstep] at hd
      have ihn := ih (pre ++ [m]) seg post next.1 next.2 target hd
      have hlen2 : (rest ++ seg :: post).length = rest.length + post.length + 1 := by
        simp only [List.length_append, List.length_cons]
        omega
      have hlen3 : (pre ++ [m]).length = pre.length + 1 := by simp
      have hidx : pre.length + (m :: rest).length = pre.length + 1 + rest.length := by
        simp only [List.length_cons]
        omega
      rw [hlen3, ← hlist2] at ihn
      rw [hidx, ← ihn, hlen2]
      unfold descendStep at hstep
      cases hfind : FindFProperty h scope m with
      | none => simp [hfind] at hstep
      | some p =>
        simp only [hfind] at hstep
        simp only [hne, if_false]
        cases hk : p.kind with
        | object =>
          simp only [hk] at hstep
          cases hov : M.objectValue cur p with
          | none => simp [hov] at hstep
          | some o =>
            simp only [hov, Option.map_some', Option.some.injEq] at hstep
            subst hstep
            rfl
        | struct typeName fields =>
          simp only [hk, Option.some.injEq] at hstep
          subst hstep
          rfl
        | _ => simp [hk] at hstep

/-- The loop over all segments, once the descent through `pre` is known: what is left is
the single step at the segment that follows. -/
theorem resolveLoop_after_descend {Ptr : Type} (h : Host) (M : Memory Ptr)
    (pre : List String) (seg : String) (post : List String) (scope : UStruct) (cur : Ptr)
    (target : UStruct × Ptr) (hd : descend h M scope cur pre = some target) :
    resolveLoop h M (pre ++ seg :: post) (pre ++ seg :: post).length 0 scope cur
      = resolveLoop h M (pre ++ seg :: post) (post.length + 1) pre.length
          target.1 target.2 := by
  have hmain := resolveLoop_descend h M pre [] seg post scope cur target hd
  have hlen : (pre ++ seg :: post).length = pre.length + post.length + 1 := by
    simp only [List.length_append, List.length_cons]
    omega
  simp only [List.nil_append, List.length_nil, Nat.zero_add] at hmain
  rw [hlen]
  exact hmain

theorem ParseIntoArray_empty (d : Char) : ParseIntoArray "" d = [] := by
  simp [ParseIntoArray, parseScan]

/-- The resolver on a non-null root and a path with at least one segment is the loop. -/
theorem Resolve_eq_loop {Ptr : Type} (h : Host) (M : Memory Ptr) (root : Ptr)
    (path : String) (c0 : Option Ptr) (e0 : String) (segs : List String)
    (hsegs : ParseIntoArray path '.' = segs) (hne : segs ≠ []) :
    ResolveNestedPropertyPath h M (some root) path c0 e0
      = resolveLoop h M segs segs.length 0 (M.classOf root) root := by
  have hpath : path ≠ "" := by
    intro hp
    subst hp
    rw [ParseIntoArray_empty] at hsegs
    exact hne hsegs.symm
  have hlen : segs.length ≠ 0 := fun hl => hne (List.eq_nil_of_length_eq_zero hl)
  simp [ResolveNestedPropertyPath, hpath, hsegs, hlen]

/-! ### Error texts -/

theorem append_ne_empty (a b : String) (ha : a ≠ "") : a ++ b ≠ "" := by
  intro hab
  apply ha
  have hd := congrArg String.data hab
  simp only [String.data_append, List.append_eq_nil] at hd
  exact String.ext hd.1

theorem notFoundMsg_ne_empty (seg scopeName : String) (k n : Nat) :
    notFoundMsg seg scopeName k n ≠ "" := by
  simp only [notFoundMsg, String.append_assoc]
  exact append_ne_empty _ _ (by decide)

theorem nullObjectMsg_ne_empty (seg : String) (k n : Nat) : nullObjectMsg seg k n ≠ "" := by
  simp only [nullObjectMsg, String.append_assoc]
  exact append_ne_empty _ _ (by decide)

theorem cannotTraverseMsg_ne_empty (seg cn : String) : cannotTraverseMsg seg cn ≠ "" := by
  simp only [cannotTraverseMsg, String.append_assoc]
  exact append_ne_empty _ _ (by decide)

theorem notFoundMsg_mentions (seg scopeName : String) (k n : Nat) :
    Mentions (notFoundMsg seg scopeName k n) seg ∧
    Mentions (notFoundMsg seg scopeName k n) scopeName ∧
    Mentions (notFoundMsg seg scopeName k n) (toString k) ∧
    Mentions (notFoundMsg seg scopeName k n) (toString n) := by
  refine ⟨⟨"Property '", "' not found in scope '" ++ scopeName ++ "' (segment " ++
      toString k ++ " of " ++ toString n ++ ")", ?_⟩,
    ⟨"Property '" ++ seg ++ "' not found in scope '", "' (segment " ++
      toString k ++ " of " ++ toString n ++ ")", ?_⟩,
    ⟨"Property '" ++ seg ++ "' not found in scope '" ++ scopeName ++ "' (segment ",
      " of " ++ toString n ++ ")", ?_⟩,
    ⟨"Property '" ++ seg ++ "' not found in scope '" ++ scopeName ++ "' (segment " ++
      toString k ++ " of ", ")", ?_⟩⟩ <;>
  simp only [notFoundMsg, String.append_assoc]

theorem nullObjectMsg_mentions (seg : String) (k n : Nat) :
    Mentions (nullObjectMsg seg k n) seg ∧ Mentions (nullObjectMsg seg k n) (toString k) := by
  refine ⟨⟨"Object property '", "' is null (segment " ++ toString k ++ " of " ++
      toString n ++ ")", ?_⟩,
    ⟨"Object property '" ++ seg ++ "' is null (segment ", " of " ++ toString n ++ ")", ?_⟩⟩ <;>
  simp only [nullObjectMsg, String.append_assoc]

theorem cannotTraverseMsg_mentions (seg cn : String) :
    Mentions (cannotTraverseMsg seg cn) seg :=
  ⟨"Cannot traverse into property '", "' of type '" ++ cn ++ "'", by
    simp only [cannotTraverseMsg, String.append_assoc]⟩

/-- Every run of the loop ends in one of two shapes: a failure with no property, no
container and a non-empty message, or a success with a property, a container and an
empty message. -/
theorem resolveLoop_shape {Ptr : Type} (h : Host) (M : Memory Ptr) (segs : List String)
    (k : Nat) : ∀ (i : Nat) (scope : UStruct) (cur : Ptr),
    (∃ msg, msg ≠ "" ∧ resolveLoop h M segs k i scope cur = ⟨none, none, msg⟩) ∨
    (∃ p c, resolveLoop h M segs k i scope cur = ⟨some p, some c, ""⟩) := by
  induction k with
  | zero =>
    intro i scope cur
    exact Or.inl ⟨_, by decide, rfl⟩
  | succ k ih =>
    intro i scope cur
    rw [resolveLoop]
    cases hfind : FindFProperty h scope (segs.getD i "") with
    | none => exact Or.inl ⟨_, notFoundMsg_ne_empty _ _ _ _, rfl⟩
    | some p =>
      by_cases hl : i = segs.length - 1
      · exact Or.inr ⟨p, cur, by simp [hl]⟩
      · simp only [hl, decide_False, Bool.false_eq_true, if_false]
        cases hk : p.kind with
        | object =>
          cases hov : M.objectValue cur p with
          | none => exact Or.inl ⟨_, nullObjectMsg_ne_empty _ _ _, rfl⟩
          | some o => exact ih _ _ _
        | struct typeName fields => exact ih _ _ _
        | _ => exact Or.inl ⟨_, cannotTraverseMsg_ne_empty _ _, rfl⟩

theorem parseScan_all_delims (d : Char) (l : List Char) (hall : ∀ ch ∈ l, ch = d) :
    parseScan d l [] = [] := by
  induction l with
  | nil => simp [parseScan]
  | cons ch rest ih =>
    have hch : ch = d := hall ch (List.mem_cons_self _ _)
    have hrest : ∀ x ∈ rest, x = d := fun x hx => hall x (List.mem_cons_of_mem _ hx)
    simp [parseScan, hch, ih hrest]

/-- C7: when the segments of the path are `s1 ... sn` (n at least 1), each segment before
the last names, in the scope reached so far, a struct property or an object reference
holding a non-null object, and the last names a property of the scope reached, the
resolver returns the descriptor of the last segment together with the container reached
by the descent (the referenced object for a reference, the address of the struct inside
the current container for a struct), with an empty `OutError`; for a single segment the
container is the root. -/
theorem C7_resolve_success {Ptr : Type} (h : Host) (M : Memory Ptr) (root : Ptr)
    (path : String) (c0 : Option Ptr) (e0 : String) (pre : List String) (last : String)
    (target : UStruct × Ptr) (p : FProperty)
    (hsegs : ParseIntoArray path '.' = pre ++ [last])
    (hdesc : descend h M (M.classOf root) root pre = some target)
    (hfind : FindFProperty h target.1 last = some p) :
    ResolveNestedPropertyPath h M (some root) path c0 e0 = ⟨some p, some target.2, ""⟩ ∧
    (pre = [] → target.2 = root) := by
  constructor
  · rw [Resolve_eq_loop h M root path c0 e0 (pre ++ [last]) hsegs (by simp),
      resolveLoop_after_descend h M pre last [] _ _ target hdesc]
    have hstep := resolveLoop_step h M pre last [] target.1 target.2
    simp only [List.length_nil, Nat.zero_add] at hstep ⊢
    rw [hstep, hfind]
    simp
  · intro hp
    subst hp
    simp only [descend, Option.some.injEq] at hdesc
    rw [← hdesc]

/-- Witness of C7: `Transform.Scale` resolves to the descriptor of `Scale` and to the
address of the struct `Transform` inside the root object. -/
theorem C7_resolve_success_witness :
    ResolveNestedPropertyPath sampleHost sampleMemory (some (0, [])) "Transform.Scale"
        none "stale"
      = ⟨some ⟨"Scale", .float⟩, some (0, ["Transform"]), ""⟩ :=
  (C7_resolve_success sampleHost sampleMemory (0, []) "Transform.Scale" none "stale"
    ["Transform"] "Scale" (structScope "Transform" [("Scale", .float)], (0, ["Transform"]))
    ⟨"Scale", .float⟩ (by decide) rfl rfl).1

/-- C8: when the path has n segments and the k-th is the first that names no property in
the scope reached through the earlier ones, the resolver fails and `OutError` is the
not-found message, which contains the text of that segment, the name of that scope, the
position k (counted from 1) and the total n. -/
theorem C8_resolve_not_found {Ptr : Type} (h : Host) (M : Memory Ptr) (root : Ptr)
    (path : String) (c0 : Option Ptr) (e0 : String) (pre : List String) (seg : String)
    (post : List String) (target : UStruct × Ptr)
    (hsegs : ParseIntoArray path '.' = pre ++ seg :: post)
    (hdesc : descend h M (M.classOf root) root pre = some target)
    (hfind : FindFProperty h target.1 seg = none) :
    ResolveNestedPropertyPath h M (some root) path c0 e0
      = ⟨none, none, notFoundMsg seg target.1.name (pre.length + 1)
          (pre ++ seg :: post).length⟩ ∧
    Mentions (ResolveNestedPropertyPath h M (some root) path c0 e0).OutError seg ∧
    Mentions (ResolveNestedPropertyPath h M (some root) path c0 e0).OutError target.1.name ∧
    Mentions (ResolveNestedPropertyPath h M (some root) path c0 e0).OutError
      (toString (pre.length + 1)) ∧
    Mentions (ResolveNestedPropertyPath h M (some root) path c0 e0).OutError
      (toString (pre ++ seg :: post).length) := by
  have hres : ResolveNestedPropertyPath h M (some root) path c0 e0
      = ⟨none, none, notFoundMsg seg target.1.name (pre.length + 1)
          (pre ++ seg :: post).length⟩ := by
    rw [Resolve_eq_loop h M root path c0 e0 (pre ++ seg :: post) hsegs (by simp),
      resolveLoop_after_descend h M pre seg post _ _ target hdesc, resolveLoop_step, hfind]
  rw [hres]
  exact ⟨rfl, notFoundMsg_mentions _ _ _ _⟩

/-- Witness of C8: `Transform.Bogus` fails naming segment 2 of 2 in scope `Transform`. -/
theorem C8_resolve_not_found_witness :
    ResolveNestedPropertyPath sampleHost sampleMemory (some (0, [])) "Transform.Bogus"
        none ""
      = ⟨none, none, "Property 'Bogus' not found in scope 'Transform' (segment 2 of 2)"⟩ :=
  (C8_resolve_not_found sampleHost sampleMemory (0, []) "Transform.Bogus" none ""
    ["Transform"] "Bogus" [] (structScope "Transform" [("Scale", .float)], (0, ["Transform"]))
    (by decide) rfl rfl).1

/-- C9: the resolver returns no property when the root object is null, when the path is
the empty string, and when the path consists of `.` characters only, whatever the other
argument is. -/
theorem C9_resolve_rejects_bad_input {Ptr : Type} (h : Host) (M : Memory Ptr)
    (root : Option Ptr) (path : String) (c0 : Option Ptr) (e0 : String) :
    (ResolveNestedPropertyPath h M none path c0 e0).property = none ∧
    (ResolveNestedPropertyPath h M root "" c0 e0).property = none ∧
    ((∀ ch ∈ path.toList, ch = '.') →
      (ResolveNestedPropertyPath h M root path c0 e0).property = none) := by
  refine ⟨rfl, ?_, ?_⟩
  · cases root <;> simp [ResolveNestedPropertyPath]
  · intro hall
    have hz : ParseIntoArray path '.' = [] := parseScan_all_delims '.' path.toList hall
    cases root with
    | none => rfl
    | some r =>
      by_cases hp : path = ""
      · simp [ResolveNestedPropertyPath, hp]
      · simp [ResolveNestedPropertyPath, hp, hz]

/-- Witness of C9: the path `...` yields no property. -/
theorem C9_resolve_rejects_bad_input_witness :
    (ResolveNestedPropertyPath sampleHost sampleMemory (some (0, [])) "..." none "").property
      = none :=
  (C9_resolve_rejects_bad_input sampleHost sampleMemory (some (0, [])) "..." none "").2.2
    (by decide)

/-- C11: when a segment before the last names an existing property that is neither an
object reference nor a struct, the resolver fails with the cannot-traverse message, which
contains the segment; when it names an object reference holding null, the resolver fails
with the null-object message, which contains the segment and its position counted from
1. -/
theorem C11_resolve_traversal_errors {Ptr : Type} (h : Host) (M : Memory Ptr) (root : Ptr)
    (path : String) (c0 : Option Ptr) (e0 : String) (pre : List String) (seg : String)
    (post : List String) (target : UStruct × Ptr) (p : FProperty)
    (hsegs : ParseIntoArray path '.' = pre ++ seg :: post) (hpost : post ≠ [])
    (hdesc : descend h M (M.classOf root) root pre = some target)
    (hfind : FindFProperty h target.1 seg = some p) :
    (p.kind ≠ .object → (∀ tn fields, p.kind ≠ .struct tn fields) →
      ResolveNestedPropertyPath h M (some root) path c0 e0
        = ⟨none, none, cannotTraverseMsg seg p.kind.className⟩ ∧
      Mentions (cannotTraverseMsg seg p.kind.className) seg) ∧
    (p.kind = .object → M.objectValue target.2 p = none →
      ResolveNestedPropertyPath h M (some root) path c0 e0
        = ⟨none, none, nullObjectMsg seg (pre.length + 1) (pre ++ seg :: post).length⟩ ∧
      Mentions (nullObjectMsg seg (pre.length + 1) (pre ++ seg :: post).length) seg ∧
      Mentions (nullObjectMsg seg (pre.length + 1) (pre ++ seg :: post).length)
        (toString (pre.length + 1))) := by
  have hloop : ResolveNestedPropertyPath h M (some root) path c0 e0
      = resolveLoop h M (pre ++ seg :: post) (post.length + 1) pre.length
          target.1 target.2 := by
    rw [Resolve_eq_loop h M root path c0 e0 (pre ++ seg :: post) hsegs (by simp),
      resolveLoop_after_descend h M pre seg post _ _ target hdesc]
  rw [hloop, resolveLoop_step, hfind]
  simp only [hpost, if_false]
  constructor
  · intro hobj hstruct
    refine ⟨?_, cannotTraverseMsg_mentions _ _⟩
    cases hk : p.kind with
    | object => exact absurd hk hobj
    | struct tn fields => exact absurd hk (hstruct tn fields)
    | _ => rfl
  · intro hobj hnull
    refine ⟨?_, nullObjectMsg_mentions _ _ _⟩
    simp only [hobj, hnull]

/-- Witness of C11: `Health.X` cannot pass the float `Health`, and `Owner.X` stops at the
null reference `Owner`, segment 1 of 2. -/
theorem C11_resolve_traversal_errors_witness :
    ResolveNestedPropertyPath sampleHost sampleMemory (some (0, [])) "Health.X" none ""
      = ⟨none, none, "Cannot traverse into property 'Health' of type 'FloatProperty'"⟩ ∧
    ResolveNestedPropertyPath sampleHost sampleMemory (some (0, [])) "Owner.X" none ""
      = ⟨none, none, "Object property 'Owner' is null (segment 1 of 2)"⟩ :=
  ⟨((C11_resolve_traversal_errors sampleHost sampleMemory (0, []) "Health.X" none "" []
      "Health" ["X"] (actorClass, (0, [])) ⟨"Health", .float⟩ (by decide) (by simp) rfl rfl).1
      (by simp) (by simp)).1,
   ((C11_resolve_traversal_errors sampleHost sampleMemory (0, []) "Owner.X" none "" []
      "Owner" ["X"] (actorClass, (0, [])) ⟨"Owner", .object⟩ (by decide) (by simp) rfl rfl).2
      rfl rfl).1⟩

/-- Counterexample to C13 as stated: the empty path and the path `.` have the same (empty)
sequence of segments, yet the error texts differ. -/
theorem C13_counterexample :
    ParseIntoArray "" '.' = ParseIntoArray "." '.' ∧
    (ResolveNestedPropertyPath sampleHost sampleMemory (some (0, [])) "" none "").OutError
      = "Property path is empty" ∧
    (ResolveNestedPropertyPath sampleHost sampleMemory (some (0, [])) "." none "").OutError
      = "Invalid property path format" := by
  refine ⟨by decide, rfl, rfl⟩

/-- C13 as amended: for every root and every two non-empty path strings with the same
sequence of non-empty segments, the resolver returns the same result: the same property,
the same container and the same error text. -/
theorem C13_same_segments_same_result {Ptr : Type} (h : Host) (M : Memory Ptr)
    (root : Option Ptr) (p1 p2 : String) (c1 c2 : Option Ptr) (e1 e2 : String)
    (h1 : p1 ≠ "") (h2 : p2 ≠ "")
    (hsame : ParseIntoArray p1 '.' = ParseIntoArray p2 '.') :
    ResolveNestedPropertyPath h M root p1 c1 e1
      = ResolveNestedPropertyPath h M root p2 c2 e2 := by
  cases root with
  | none => rfl
  | some r => simp [ResolveNestedPropertyPath, h1, h2, hsame]

/-- Witness of the amended C13: `Transform.Scale` and `.Transform..Scale.` resolve
alike. -/
theorem C13_same_segments_same_result_witness :
    ResolveNestedPropertyPath sampleHost sampleMemory (some (0, [])) "Transform.Scale"
        none ""
      = ResolveNestedPropertyPath sampleHost sampleMemory (some (0, [])) ".Transform..Scale."
        none "" :=
  C13_same_segments_same_result sampleHost sampleMemory (some (0, [])) "Transform.Scale"
    ".Transform..Scale." none none "" "" (by decide) (by decide) (by decide)

/-- C14: when the container is null, or the property is null, or the JSON value is null,
`ApplyJsonValueToProperty` returns `false` with the message "Invalid
target/property/value" and the container is what it was, whatever the other arguments
are. -/
theorem C14_apply_null_inputs (h : Host) (c : Option Container) (p : Option FProperty)
    (v : Option JsonValue) (e : String) (hnull : c = none ∨ p = none ∨ v = none) :
    ApplyJsonValueToProperty h c p v e = (false, "Invalid target/property/value", c) := by
  rcases hnull with hc | hp | hv
  · subst hc
    rfl
  · subst hp
    cases c <;> rfl
  · subst hv
    cases c <;> cases p <;> rfl

/-- Witness of C14: a null property. -/
theorem C14_apply_null_inputs_witness :
    ApplyJsonValueToProperty sampleHost (some [("N", .int32 4)]) none (some (.number 1)) "old"
      = (false, "Invalid target/property/value", some [("N", .int32 4)]) :=
  C14_apply_null_inputs sampleHost (some [("N", .int32 4)]) none (some (.number 1)) "old"
    (Or.inr (Or.inl rfl))

/-- C15: `ExportPropertyToJsonValue` has no error channel: it returns the null result
when the container is null, when the property is null, and when the kind of the property
is none of the supported ones; for every supported kind, with a non-null container and
property, it returns a value. -/
theorem C15_export_total (h : Host) (c : Option Container) (p : Option FProperty) :
    ExportPropertyToJsonValue h none p = none ∧
    ExportPropertyToJsonValue h c none = none ∧
    (∀ (c0 : Container) (name cn : String),
      ExportPropertyToJsonValue h (some c0) (some ⟨name, .other cn⟩) = none) ∧
    (∀ (c0 : Container) (p0 : FProperty), p0.kind.isSupported = true →
      (ExportPropertyToJsonValue h (some c0) (some p0)).isSome = true) := by
  refine ⟨rfl, by cases c <;> rfl, fun _ _ _ => rfl, ?_⟩
  intro c0 p0 hsup
  obtain ⟨name, kind⟩ := p0
  cases kind with
  | other cn => simp [PropKind.isSupported] at hsup
  | byte en =>
    cases en <;> simp only [ExportPropertyToJsonValue, exportCore] <;>
      first | rfl | (split_ifs <;> rfl)
  | enum en u =>
    cases en <;> cases u <;> simp only [ExportPropertyToJsonValue, exportCore] <;>
      first | rfl | (split_ifs <;> rfl)
  | object =>
    simp only [ExportPropertyToJsonValue, exportCore]
    cases readObject (Container.get c0 name) <;> rfl
  | softObject =>
    simp only [ExportPropertyToJsonValue, exportCore]
    cases readSoft (Container.get c0 name) <;> rfl
  | softClass =>
    simp only [ExportPropertyToJsonValue, exportCore]
    cases readSoft (Container.get c0 name) <;> rfl
  | struct tn fields =>
    simp only [ExportPropertyToJsonValue, exportCore]
    split_ifs <;> rfl
  | _ => rfl

/-- Witness of C15: an Int32 array property exports to a value. -/
theorem C15_export_total_witness :
    (ExportPropertyToJsonValue sampleHost (some []) (some ⟨"Ints", .array .int32⟩)).isSome
      = true :=
  (C15_export_total sampleHost none none).2.2.2 [] ⟨"Ints", .array .int32⟩ rfl

/-! ### Field accessors -/

/-- Counterexample to C16 as stated: with the typed reads of the engine, a Bool field read
by `GetJsonStringField` gives its text and not the default, a String field read by
`GetJsonBoolField` gives its truth value and not the default, and a numeric String field
read by `GetJsonNumberField` gives its number and not the default. -/
theorem C16_counterexample :
    GetJsonStringField sampleHost (some [("flag", .boolean true)]) "flag" "dflt" = "true" ∧
    GetJsonBoolField sampleHost (some [("flag", .string "true")]) "flag" false = true ∧
    GetJsonNumberField sampleHost (some [("count", .string "12")]) "count" 0 = 12 := by
  refine ⟨by decide, by decide, ?_⟩
  simp [GetJsonNumberField, TryGetField, TryGetNumber, sampleHost, sampleIsNumeric,
    sampleAtoi, leadingDigits]

/-- C16 as amended: each of the four accessors returns the default when the object is
null or invalid, when the field is absent, and when the field is present but the typed
read of its value (`TryGetString`, `TryGetNumber`, `TryGetBool`) reports failure; when
the typed read succeeds, also by coercing a value of another JSON type, its result is
returned in place of the default (by `GetJsonIntField` cut off toward zero, for a number
within the 32-bit range).  No error is produced in any case.  The default of
`GetJsonIntField` is an `int32`. -/
theorem C16_field_accessor_defaults (h : Host) (f ds : String) (dn : ℚ) (db : Bool)
    (di : Int) (lo : -2147483648 ≤ di) (hi : di < 2147483648) :
    (GetJsonStringField h none f ds = ds ∧ GetJsonNumberField h none f dn = dn ∧
      GetJsonBoolField h none f db = db ∧ GetJsonIntField h none f di = di) ∧
    (∀ o, TryGetField o f = none →
      GetJsonStringField h (some o) f ds = ds ∧ GetJsonNumberField h (some o) f dn = dn ∧
      GetJsonBoolField h (some o) f db = db ∧ GetJsonIntField h (some o) f di = di) ∧
    (∀ o v, TryGetField o f = some v →
      (TryGetString h v = none → GetJsonStringField h (some o) f ds = ds) ∧
      (TryGetNumber h v = none →
        GetJsonNumberField h (some o) f dn = dn ∧ GetJsonIntField h (some o) f di = di) ∧
      (TryGetBool h v = none → GetJsonBoolField h (some o) f db = db)) ∧
    (∀ o v, TryGetField o f = some v →
      (∀ s, TryGetString h v = some s → GetJsonStringField h (some o) f ds = s) ∧
      (∀ x, TryGetNumber h v = some x →
        GetJsonNumberField h (some o) f dn = x ∧
        (-2147483648 < x → x < 2147483648 →
          GetJsonIntField h (some o) f di = truncTowardZero x)) ∧
      (∀ b, TryGetBool h v = some b → GetJsonBoolField h (some o) f db = b)) := by
  have hd := int32_default_passage h di lo hi
  refine ⟨⟨rfl, rfl, rfl, ?_⟩, ?_, ?_, ?_⟩
  · simp [GetJsonIntField, hd]
  · intro o ho
    simp [GetJsonStringField, GetJsonNumberField, GetJsonBoolField, GetJsonIntField, ho, hd]
  · intro o v hv
    refine ⟨fun hs => ?_, fun hn => ?_, fun hb => ?_⟩
    · simp [GetJsonStringField, hv, hs]
    · simp [GetJsonNumberField, GetJsonIntField, hv, hn, hd]
    · simp [GetJsonBoolField, hv, hb]
  · intro o v hv
    refine ⟨fun s hs => ?_, fun x hn => ?_, fun b hb => ?_⟩
    · simp [GetJsonStringField, hv, hs]
    · refine ⟨by simp [GetJsonNumberField, hv, hn], fun xlo xhi => ?_⟩
      simp [GetJsonIntField, hv, hn, doubleToInt32_eq_truncTowardZero h x xlo xhi]
    · simp [GetJsonBoolField, hv, hb]

/-- Witness of the amended C16: an absent field gives the defaults, for every host. -/
theorem C16_field_accessor_defaults_witness :
    GetJsonStringField sampleHost (some [("a", .number 1)]) "b" "dflt" = "dflt" ∧
    GetJsonNumberField sampleHost (some [("a", .number 1)]) "b" 5 = 5 ∧
    GetJsonBoolField sampleHost (some [("a", .number 1)]) "b" true = true ∧
    GetJsonIntField sampleHost (some [("a", .number 1)]) "b" 7 = 7 :=
  (C16_field_accessor_defaults sampleHost "b" "dflt" 5 true 7 (by decide) (by decide)).2.1
    [("a", .number 1)] (by simp [TryGetField])

/-- C17: when the field holds a Number `n` with absolute value below 2^31,
`GetJsonIntField` returns `n` truncated toward zero, whatever the default is; and for a
32-bit default `d` it returns exactly `d` when the object is invalid or the field is
absent. -/
theorem C17_int_field_truncates (h : Host) (o : List (String × JsonValue)) (f : String)
    (n : ℚ) (d : Int) :
    (TryGetField o f = some (.number n) → -2147483648 < n → n < 2147483648 →
      GetJsonIntField h (some o) f d = truncTowardZero n) ∧
    (-2147483648 ≤ d → d < 2147483648 →
      GetJsonIntField h none f d = d ∧
      (TryGetField o f = none → GetJsonIntField h (some o) f d = d)) := by
  constructor
  · intro hf lo hi
    simp only [GetJsonIntField, hf, Option.bind_some, TryGetNumber]
    exact doubleToInt32_eq_truncTowardZero h n lo hi
  · intro lo hi
    have hd := int32_default_passage h d lo hi
    refine ⟨by simp [GetJsonIntField, hd], fun hf => ?_⟩
    simp [GetJsonIntField, hf, hd]

/-- Witness of C17: 2.9 gives 2 and -2.9 gives -2, with default 77. -/
theorem C17_int_field_truncates_witness :
    GetJsonIntField sampleHost (some [("n", .number (29 / 10))]) "n" 77
      = truncTowardZero (29 / 10) ∧
    truncTowardZero (29 / 10) = 2 ∧
    GetJsonIntField sampleHost (some [("n", .number (-29 / 10))]) "n" 77
      = truncTowardZero (-29 / 10) ∧
    truncTowardZero (-29 / 10) = -2 := by
  refine ⟨(C17_int_field_truncates sampleHost [("n", .number (29 / 10))] "n" (29 / 10) 77).1
      (by simp [TryGetField]) (by norm_num) (by norm_num), ?_,
    (C17_int_field_truncates sampleHost [("n", .number (-29 / 10))] "n" (-29 / 10) 77).1
      (by simp [TryGetField]) (by norm_num) (by norm_num), ?_⟩
  · have hfl : ⌊(29 / 10 : ℚ)⌋ = 2 := by
      rw [Int.floor_eq_iff]
      norm_num
    simp [truncTowardZero, hfl]
    norm_num
  · have hcl : ⌈(-29 / 10 : ℚ)⌉ = -2 := by
      rw [Int.ceil_eq_iff]
      norm_num
    simp [truncTowardZero, hcl]
    norm_num

/-! ### Sanitizers and extraction at particular inputs -/

/-- C18, the code at the input `a<TAB>b`: the tab inside the name is a whitespace
character, it is neither trimmed nor replaced, and the result still contains it. -/
theorem C18_sanitizeAssetName_keeps_tab :
    SanitizeAssetName "a\tb" = "a\tb" ∧ '\t'.isWhitespace = true ∧
    '\t' ∈ (SanitizeAssetName "a\tb").toList := by
  decide

/-- C19, the code at the input `/GameEvil/x`: the path is returned although its root
segment is `GameEvil`, which is none of `Game`, `Engine`, `Script`, and although it has
two segments only, so it is not plugin-like either. -/
theorem C19_sanitizeProjectRelativePath_prefix_root :
    SanitizeProjectRelativePath sampleHost "/GameEvil/x" = "/GameEvil/x" ∧
    ParseIntoArray "/GameEvil/x" '/' = ["GameEvil", "x"] := by
  decide

/-- C20, the code at two inputs.  In the first a closing brace comes before the object:
the depth falls to -1 and the object that follows is not returned.  In the second the
object has a closing brace inside a string literal: the piece returned stops there and
is not the object. -/
theorem C20_extract_stray_closing_brace :
    ExtractTopLevelJsonObjects "\x7d\x7b\x7d" = [] ∧
    ExtractTopLevelJsonObjects "\x7b\"a\":\"\x7d\"\x7d" = ["\x7b\"a\":\"\x7d"] := by
  decide

/-! ### Arrays, maps and sets under the apply -/

theorem convertArrayElem_none (h : Host) (inner : PropKind) (V : JsonValue)
    (hin : inner.hasArrayConversion = false) : convertArrayElem h inner V = none := by
  cases inner <;> simp [PropKind.hasArrayConversion] at hin <;> rfl

/-- Counterexample to C21 as stated: the inner kind is an object reference, which has no
conversion, and the JSON array is empty; the call returns `true`. -/
theorem C21_counterexample :
    ApplyJsonValueToProperty sampleHost (some [("Refs", .array [.object none])])
        (some ⟨"Refs", .array .object⟩) (some (.array [])) ""
      = (true, "", some [("Refs", .array [])]) := by
  simp [ApplyJsonValueToProperty, applyCore, fillArray, Container.set]

/-- C21 as amended: on an Array property whose inner kind is none of String, Name, Bool,
Float, Double, Int32, Int64, Byte, every non-empty JSON Array fails with the
unsupported-inner-type error, the array being left with the one default element that was
added before the failure; the empty JSON Array succeeds and leaves the array empty. -/
theorem C21_unsupported_inner_kind (h : Host) (c : Container) (name e : String)
    (inner : PropKind) (hin : inner.hasArrayConversion = false) :
    (∀ (V : JsonValue) (rest : List JsonValue),
      ApplyJsonValueToProperty h (some c) (some ⟨name, .array inner⟩)
          (some (.array (V :: rest))) e
        = (false, "Unsupported array inner property type for JSON assignment",
            some (c.set name (.array [.blank])))) ∧
    ApplyJsonValueToProperty h (some c) (some ⟨name, .array inner⟩) (some (.array [])) e
      = (true, "", some (c.set name (.array []))) := by
  constructor
  · intro V rest
    simp [ApplyJsonValueToProperty, applyCore, fillArray, convertArrayElem_none h inner V hin]
  · simp [ApplyJsonValueToProperty, applyCore, fillArray]

/-- Witness of the amended C21: an array of object references and a one-element JSON
array. -/
theorem C21_unsupported_inner_kind_witness :
    ApplyJsonValueToProperty sampleHost (some []) (some ⟨"Refs", .array .object⟩)
        (some (.array [.string "/Game/A"])) ""
      = (false, "Unsupported array inner property type for JSON assignment",
          some [("Refs", .array [.blank])]) :=
  (C21_unsupported_inner_kind sampleHost [] "Refs" "" .object rfl).1 (.string "/Game/A") []

/-- C23: on a Bool property the apply succeeds exactly for a JSON Bool, Number or String,
storing the Bool itself, whether the number differs from zero, and whether the string is
`true` up to letter case; for Null, Array and Object it fails and leaves the container
unchanged. -/
theorem C23_bool_property (h : Host) (c : Container) (name e : String) :
    (∀ b : Bool,
      ApplyJsonValueToProperty h (some c) (some ⟨name, .bool⟩) (some (.boolean b)) e
        = (true, "", some (c.set name (.bool b)))) ∧
    (∀ n : ℚ,
      ApplyJsonValueToProperty h (some c) (some ⟨name, .bool⟩) (some (.number n)) e
        = (true, "", some (c.set name (.bool (decide (n ≠ 0)))))) ∧
    (∀ s : String,
      ApplyJsonValueToProperty h (some c) (some ⟨name, .bool⟩) (some (.string s)) e
        = (true, "", some (c.set name (.bool (equalsIgnoreCase s "true"))))) ∧
    (∀ v : JsonValue, v.type = .Null ∨ v.type = .Array ∨ v.type = .Object →
      ApplyJsonValueToProperty h (some c) (some ⟨name, .bool⟩) (some v) e
        = (false, "Unsupported JSON type for bool property", some c)) ∧
    (∀ v : JsonValue,
      (ApplyJsonValueToProperty h (some c) (some ⟨name, .bool⟩) (some v) e).1 = true ↔
        v.type = .Boolean ∨ v.type = .Number ∨ v.type = .String) := by
  refine ⟨fun b => ?_, fun n => ?_, fun s => ?_, fun v hv => ?_, fun v => ?_⟩
  · simp [ApplyJsonValueToProperty, applyCore]
  · simp [ApplyJsonValueToProperty, applyCore]
  · simp [ApplyJsonValueToProperty, applyCore]
  · cases v <;> simp [JsonValue.type] at hv <;> simp [ApplyJsonValueToProperty, applyCore]
  · cases v <;> simp [ApplyJsonValueToProperty, applyCore, JsonValue.type]

/-- Witness of C23: the strings `TRUE`, `1` and `yes` store true, false and false, and a
Null is refused. -/
theorem C23_bool_property_witness :
    equalsIgnoreCase "TRUE" "true" = true ∧ equalsIgnoreCase "1" "true" = false ∧
    equalsIgnoreCase "yes" "true" = false ∧
    ApplyJsonValueToProperty sampleHost (some [("On", .bool true)]) (some ⟨"On", .bool⟩)
        (some .null) ""
      = (false, "Unsupported JSON type for bool property", some [("On", .bool true)]) :=
  ⟨by decide, by decide, by decide,
    (C23_bool_property sampleHost [("On", .bool true)] "On" "").2.2.2.1 .null (Or.inl rfl)⟩

/-- C29: on a Map property and on a Set property every JSON value is refused with the
unsupported-property-type error and the container stays as it was; this holds in
particular for the Object or Array that the export of the same property produced. -/
theorem C29_map_set_not_applicable (h : Host) (c : Container) (name e : String)
    (k1 k2 : PropKind) (v : JsonValue) :
    ApplyJsonValueToProperty h (some c) (some ⟨name, .map k1 k2⟩) (some v) e
      = (false, "Unsupported property type for JSON assignment", some c) ∧
    ApplyJsonValueToProperty h (some c) (some ⟨name, .set k1⟩) (some v) e
      = (false, "Unsupported property type for JSON assignment", some c) ∧
    (∀ out, ExportPropertyToJsonValue h (some c) (some ⟨name, .map k1 k2⟩) = some out →
      ApplyJsonValueToProperty h (some c) (some ⟨name, .map k1 k2⟩) (some out) e
        = (false, "Unsupported property type for JSON assignment", some c)) ∧
    (∀ out, ExportPropertyToJsonValue h (some c) (some ⟨name, .set k1⟩) = some out →
      ApplyJsonValueToProperty h (some c) (some ⟨name, .set k1⟩) (some out) e
        = (false, "Unsupported property type for JSON assignment", some c)) := by
  have hmap : ∀ w : JsonValue,
      ApplyJsonValueToProperty h (some c) (some ⟨name, .map k1 k2⟩) (some w) e
        = (false, "Unsupported property type for JSON assignment", some c) := by
    intro w
    cases w <;> rfl
  have hset : ∀ w : JsonValue,
      ApplyJsonValueToProperty h (some c) (some ⟨name, .set k1⟩) (some w) e
        = (false, "Unsupported property type for JSON assignment", some c) := by
    intro w
    cases w <;> rfl
  exact ⟨hmap v, hset v, fun out _ => hmap out, fun out _ => hset out⟩

/-- Witness of C29: a set of two integers exports to an array, and applying that array
back is refused. -/
theorem C29_map_set_not_applicable_witness :
    ApplyJsonValueToProperty sampleHost (some [("Tags", .set [.int32 1, .int32 2])])
        (some ⟨"Tags", .set .int32⟩) (some (.array [.number 1, .number 2])) ""
      = (false, "Unsupported property type for JSON assignment",
          some [("Tags", .set [.int32 1, .int32 2])]) :=
  (C29_map_set_not_applicable sampleHost [("Tags", .set [.int32 1, .int32 2])] "Tags" ""
    .int32 .int32 (.array [.number 1, .number 2])).2.2.2 (.array [.number 1, .number 2])
    (by simp [ExportPropertyToJsonValue, exportCore, Container.get, readSet, exportSetElem,
      readInt32])

/-! ### Object references, structs and the element rules -/

/-- C24: on an ObjectRef property, the empty String succeeds and clears the reference; a
non-empty String succeeds and stores the object when `LoadObject` finds one, or when it
finds none, the path has no dot and `StaticLoadObject` finds one; a non-empty String
that resolves to nothing fails with a message that ends in the identifier and leaves the
container as it was; every non-String value, Null included (which is what the export
gives for a null reference), fails and leaves the container as it was. -/
theorem C24_object_reference (h : Host) (c : Container) (name e : String) :
    ApplyJsonValueToProperty h (some c) (some ⟨name, .object⟩) (some (.string "")) e
      = (true, "", some (c.set name (.object none))) ∧
    (∀ (Path : String) (o : ObjId), Path ≠ "" →
      (h.loadObject Path = some o ∨
        (h.loadObject Path = none ∧ containsChar Path '.' = false ∧
          h.staticLoadObject Path = some o)) →
      ApplyJsonValueToProperty h (some c) (some ⟨name, .object⟩) (some (.string Path)) e
        = (true, "", some (c.set name (.object (some o))))) ∧
    (∀ Path : String, Path ≠ "" → h.loadObject Path = none →
      (containsChar Path '.' = true ∨ h.staticLoadObject Path = none) →
      ApplyJsonValueToProperty h (some c) (some ⟨name, .object⟩) (some (.string Path)) e
        = (false, "Failed to load object at path: " ++ Path, some c) ∧
      Mentions ("Failed to load object at path: " ++ Path) Path) ∧
    (∀ v : JsonValue, v.type ≠ .String →
      ApplyJsonValueToProperty h (some c) (some ⟨name, .object⟩) (some v) e
        = (false, "Unsupported JSON type for object property", some c)) ∧
    (c.get name = some (.object none) →
      ExportPropertyToJsonValue h (some c) (some ⟨name, .object⟩) = some .null) := by
  refine ⟨?_, ?_, ?_, ?_, ?_⟩
  · simp [ApplyJsonValueToProperty, applyCore]
  · intro Path o hne hres
    rcases hres with hl | ⟨hl, hdot, hs⟩
    · simp [ApplyJsonValueToProperty, applyCore, hne, hl]
    · simp [ApplyJsonValueToProperty, applyCore, hne, hl, hdot, hs]
  · intro Path hne hl hno
    refine ⟨?_, ⟨"Failed to load object at path: ", "", by simp⟩⟩
    rcases hno with hdot | hs
    · simp [ApplyJsonValueToProperty, applyCore, hne, hl, hdot]
    · by_cases hdot : containsChar Path '.' = true
      · simp [ApplyJsonValueToProperty, applyCore, hne, hl, hdot]
      · simp [ApplyJsonValueToProperty, applyCore, hne, hl, hdot, hs]
  · intro v hv
    cases v <;> simp [JsonValue.type] at hv <;> simp [ApplyJsonValueToProperty, applyCore]
  · intro hslot
    simp [ExportPropertyToJsonValue, exportCore, hslot, readObject]

/-- Witness of C24: the host of the examples knows no object, so `/Game/Missing` fails
and the reference stays. -/
theorem C24_object_reference_witness :
    ApplyJsonValueToProperty sampleHost (some [("Target", .object (some 3))])
        (some ⟨"Target", .object⟩) (some (.string "/Game/Missing")) ""
      = (false, "Failed to load object at path: /Game/Missing",
          some [("Target", .object (some 3))]) :=
  ((C24_object_reference sampleHost [("Target", .object (some 3))] "Target" "").2.2.1
    "/Game/Missing" (by decide) rfl (Or.inr rfl)).1

/-- Counterexample to C25 as stated: for the element kind Bool the array rule emits a
Bool and the set rule a String; for the element kind Name the array rule emits the name
and the map rule the textual export; for Double the array rule emits a Number and the set
and map rules a String. -/
theorem C25_counterexample :
    exportArrayElem sampleHost .bool (.bool true) = .boolean true ∧
    exportSetElem sampleHost .bool (.bool true) = .string "()" ∧
    exportArrayElem sampleHost .name (.name "Tag") = .string "Tag" ∧
    exportMapValue sampleHost .name (.name "Tag") = .string "()" ∧
    exportArrayElem sampleHost .double (.double 2) = .number 2 ∧
    exportSetElem sampleHost .double (.double 2) = .string "()" ∧
    exportMapValue sampleHost .double (.double 2) = .string "()" := by
  refine ⟨rfl, rfl, rfl, rfl, rfl, rfl, rfl⟩

/-- C25 as amended: the three container kinds emit the same value for an element exactly
on the kinds they all treat alike: String to String, Int32 and Float to Number, and
every kind outside String, Name, Bool, Float, Double, Int32 to the String of its textual
export.  For Name the array and set rules emit the name and the map rule the textual
export; for Bool the array and map rules emit a Bool and the set rule the textual
export; for Double the array rule emits a Number and the set and map rules the textual
export. -/
theorem C25_element_rules (h : Host) (K : PropKind) (x : PropValue) :
    (K ≠ .name → K ≠ .bool → K ≠ .double →
      exportArrayElem h K x = exportSetElem h K x ∧
      exportArrayElem h K x = exportMapValue h K x) ∧
    (exportArrayElem h .str x = .string (readStr (some x)) ∧
      exportArrayElem h .int32 x = .number (readInt32 (some x)) ∧
      exportArrayElem h .float x = .number (readFloat (some x))) ∧
    (exportArrayElem h .name x = .string (readName (some x)) ∧
      exportSetElem h .name x = .string (readName (some x)) ∧
      exportMapValue h .name x = .string (h.exportText .name x)) ∧
    (exportArrayElem h .bool x = .boolean (readBool (some x)) ∧
      exportMapValue h .bool x = .boolean (readBool (some x)) ∧
      exportSetElem h .bool x = .string (h.exportText .bool x)) ∧
    (exportArrayElem h .double x = .number (readDouble (some x)) ∧
      exportSetElem h .double x = .string (h.exportText .double x) ∧
      exportMapValue h .double x = .string (h.exportText .double x)) := by
  refine ⟨?_, ⟨rfl, rfl, rfl⟩, ⟨rfl, rfl, rfl⟩, ⟨rfl, rfl, rfl⟩, ⟨rfl, rfl, rfl⟩⟩
  intro hn hb hd
  cases K with
  | name => exact absurd rfl hn
  | bool => exact absurd rfl hb
  | double => exact absurd rfl hd
  | _ => exact ⟨rfl, rfl⟩

/-- Witness of the amended C25: an Int32 element is emitted alike by the three rules. -/
theorem C25_element_rules_witness :
    exportArrayElem sampleHost .int32 (.int32 4) = exportSetElem sampleHost .int32 (.int32 4) ∧
    exportArrayElem sampleHost .int32 (.int32 4) = exportMapValue sampleHost .int32 (.int32 4) :=
  (C25_element_rules sampleHost .int32 (.int32 4)).1 (by simp) (by simp) (by simp)

/-- C27: on a Struct property the apply succeeds in two shapes only: a JSON Array of at
least three elements on a struct named `Vector` or `Rotator` (up to letter case), where
the elements after the third play no part, and a JSON String whose text parses to a JSON
object that the struct converter accepts.  Every other combination fails with the
unsupported-struct error. -/
theorem C27_struct_property (h : Host) (c : Container) (name e tn : String)
    (fields : List (String × PropKind)) (v : JsonValue) :
    ((ApplyJsonValueToProperty h (some c) (some ⟨name, .struct tn fields⟩) (some v) e).1
        = true ↔
      (∃ a0 a1 a2 rest, v = .array (a0 :: a1 :: a2 :: rest) ∧
        (equalsIgnoreCase tn "Vector" = true ∨ equalsIgnoreCase tn "Rotator" = true)) ∨
      (∃ Txt obj, v = .string Txt ∧ h.parseJsonObject Txt = some obj ∧
        (h.jsonObjectToUStruct obj fields (readStruct (c.get name))).1 = true)) ∧
    ((ApplyJsonValueToProperty h (some c) (some ⟨name, .struct tn fields⟩) (some v) e).1
        = false →
      (ApplyJsonValueToProperty h (some c) (some ⟨name, .struct tn fields⟩) (some v) e).2.1
        = "Unsupported JSON type for struct property") ∧
    (∀ a0 a1 a2 rest,
      ApplyJsonValueToProperty h (some c) (some ⟨name, .struct tn fields⟩)
          (some (.array (a0 :: a1 :: a2 :: rest))) e
        = ApplyJsonValueToProperty h (some c) (some ⟨name, .struct tn fields⟩)
          (some (.array [a0, a1, a2])) e) := by
  refine ⟨?_, ?_, ?_⟩
  · cases v with
    | array items =>
      rcases items with _ | ⟨a0, _ | ⟨a1, _ | ⟨a2, rest⟩⟩⟩ <;>
        simp [ApplyJsonValueToProperty, applyCore]
      by_cases hV : equalsIgnoreCase tn "Vector" = true
      · simp [hV]
      · by_cases hR : equalsIgnoreCase tn "Rotator" = true
        · simp [hV, hR]
        · simp [hV, hR]
    | string Txt =>
      cases hp : h.parseJsonObject Txt with
      | none => simp [ApplyJsonValueToProperty, applyCore, hp]
      | some obj =>
        by_cases hc : (h.jsonObjectToUStruct obj fields (readStruct (c.get name))).1 = true
        · simp [ApplyJsonValueToProperty, applyCore, hp, hc]
        · simp [ApplyJsonValueToProperty, applyCore, hp, hc]
    | _ => simp [ApplyJsonValueToProperty, applyCore]
  · intro hfail
    cases v with
    | array items =>
      rcases items with _ | ⟨a0, _ | ⟨a1, _ | ⟨a2, rest⟩⟩⟩ <;>
        simp_all [ApplyJsonValueToProperty, applyCore]
      split_ifs at hfail ⊢
      all_goals simp_all
    | string Txt =>
      cases hp : h.parseJsonObject Txt with
      | none => simp [ApplyJsonValueToProperty, applyCore, hp]
      | some obj =>
        by_cases hc : (h.jsonObjectToUStruct obj fields (readStruct (c.get name))).1 = true
        · simp [ApplyJsonValueToProperty, applyCore, hp, hc] at hfail
        · simp [ApplyJsonValueToProperty, applyCore, hp, hc]
    | _ => simp [ApplyJsonValueToProperty, applyCore]
  · intro a0 a1 a2 rest
    simp [ApplyJsonValueToProperty, applyCore]

/-- Witness of C27: an array of two numbers on a `Vector` fails with the
unsupported-struct error. -/
theorem C27_struct_property_witness :
    (ApplyJsonValueToProperty sampleHost (some []) (some ⟨"Location", .struct "Vector" []⟩)
        (some (.array [.number 1, .number 2])) "").2.1
      = "Unsupported JSON type for struct property" :=
  (C27_struct_property sampleHost [] "Location" "" "Vector" []
    (.array [.number 1, .number 2])).2.1 (by simp [ApplyJsonValueToProperty, applyCore])

/-! ### Strings -/

theorem head_ne_of_append (lit rest other : String) (c d : Char) (cs ds : List Char)
    (hl : lit.data = c :: cs) (ho : other.data = d :: ds) (hcd : c ≠ d) :
    lit ++ rest ≠ other := by
  intro heq
  have hd := congrArg String.data heq
  rw [String.data_append, hl, ho] at hd
  simp only [List.cons_append, List.cons.injEq] at hd
  exact hcd hd.1

theorem notFoundMsg_ne_unexpected (seg sn : String) (k n : Nat) :
    notFoundMsg seg sn k n ≠ unexpectedEndMsg := by
  simp only [notFoundMsg, String.append_assoc]
  exact head_ne_of_append _ _ _ 'P' 'U' _ _ rfl rfl (by decide)

theorem nullObjectMsg_ne_unexpected (seg : String) (k n : Nat) :
    nullObjectMsg seg k n ≠ unexpectedEndMsg := by
  simp only [nullObjectMsg, String.append_assoc]
  exact head_ne_of_append _ _ _ 'O' 'U' _ _ rfl rfl (by decide)

theorem cannotTraverseMsg_ne_unexpected (seg cn : String) :
    cannotTraverseMsg seg cn ≠ unexpectedEndMsg := by
  simp only [cannotTraverseMsg, String.append_assoc]
  exact head_ne_of_append _ _ _ 'C' 'U' _ _ rfl rfl (by decide)

/-! ### The end of the segment loop -/

/-- With at least one iteration left and the counter in step with the index, the loop
never ends on the text of the last two lines. -/
theorem resolveLoop_never_unexpected {Ptr : Type} (h : Host) (M : Memory Ptr)
    (segs : List String) (k : Nat) : ∀ (i : Nat) (scope : UStruct) (cur : Ptr),
    1 ≤ k → i + k = segs.length →
    (resolveLoop h M segs k i scope cur).OutError ≠ unexpectedEndMsg := by
  induction k with
  | zero =>
    intro i scope cur hk
    omega
  | succ k ih =>
    intro i scope cur _ hlen
    rw [resolveLoop]
    cases hfind : FindFProperty h scope (segs.getD i "") with
    | none => exact notFoundMsg_ne_unexpected _ _ _ _
    | some p =>
      by_cases hl : i = segs.length - 1
      · simp only [hl, decide_True, if_true]
        decide
      · have hk1 : 1 ≤ k := by omega
        have hlen1 : i + 1 + k = segs.length := by omega
        simp only [hl, decide_False, Bool.false_eq_true, if_false]
        cases hk : p.kind with
        | object =>
          cases hov : M.objectValue cur p with
          | none => exact nullObjectMsg_ne_unexpected _ _ _
          | some o => exact ih _ _ _ hk1 hlen1
        | struct typeName fields => exact ih _ _ _ hk1 hlen1
        | _ => exact cannotTraverseMsg_ne_unexpected _ _

/-- A larger iteration budget changes nothing: the loop is over after at most one
iteration per segment. -/
theorem resolveLoop_budget {Ptr : Type} (h : Host) (M : Memory Ptr)
    (segs : List String) (k : Nat) : ∀ (i : Nat) (scope : UStruct) (cur : Ptr) (extra : Nat),
    1 ≤ k → i + k = segs.length →
    resolveLoop h M segs (k + extra) i scope cur = resolveLoop h M segs k i scope cur := by
  induction k with
  | zero =>
    intro i scope cur extra hk
    omega
  | succ k ih =>
    intro i scope cur extra _ hlen
    have hshape : k + 1 + extra = (k + extra) + 1 := by omega
    rw [hshape, resolveLoop, resolveLoop]
    cases hfind : FindFProperty h scope (segs.getD i "") with
    | none => rfl
    | some p =>
      by_cases hl : i = segs.length - 1
      · simp only [hl, decide_True, if_true]
      · have hk1 : 1 ≤ k := by omega
        have hlen1 : i + 1 + k = segs.length := by omega
        simp only [hl, decide_False, Bool.false_eq_true, if_false]
        cases hk : p.kind with
        | object =>
          cases hov : M.objectValue cur p with
          | none => rfl
          | some o => exact ih _ _ _ extra hk1 hlen1
        | struct typeName fields => exact ih _ _ _ extra hk1 hlen1
        | _ => rfl

/-- C28: the resolver never ends on its last two lines: for every root and path
`OutError` is not the text "Unexpected end of property path resolution", because every
run leaves from one of the entry checks or from inside the loop; and the loop is over
after at most one iteration per segment, a larger iteration budget giving the same
result. -/
theorem C28_unexpected_end_unreachable {Ptr : Type} (h : Host) (M : Memory Ptr)
    (root : Option Ptr) (path : String) (c0 : Option Ptr) (e0 : String) :
    (ResolveNestedPropertyPath h M root path c0 e0).OutError ≠ unexpectedEndMsg ∧
    (∀ (r : Ptr) (extra : Nat), root = some r → path ≠ "" →
      ParseIntoArray path '.' ≠ [] →
      resolveLoop h M (ParseIntoArray path '.') ((ParseIntoArray path '.').length + extra) 0
          (M.classOf r) r
        = ResolveNestedPropertyPath h M root path c0 e0) := by
  constructor
  · cases root with
    | none =>
      simp only [ResolveNestedPropertyPath]
      decide
    | some r =>
      by_cases hp : path = ""
      · simp only [ResolveNestedPropertyPath, hp, if_true]
        decide
      · by_cases hz : (ParseIntoArray path '.').length = 0
        · simp only [ResolveNestedPropertyPath, hp, hz, if_true, if_false]
          decide
        · simp only [ResolveNestedPropertyPath, hp, hz, if_false]
          exact resolveLoop_never_unexpected h M _ _ 0 _ _ (by omega) (by omega)
  · intro r extra hroot hp hsegs
    subst hroot
    have hz : (ParseIntoArray path '.').length ≠ 0 :=
      fun hl => hsegs (List.eq_nil_of_length_eq_zero hl)
    simp only [ResolveNestedPropertyPath, hp, hz, if_false]
    exact resolveLoop_budget h M _ _ 0 _ _ extra (by omega) (by omega)

/-- Witness of C28: with ten spare iterations the loop on `Transform.Scale` gives what the
resolver gives. -/
theorem C28_unexpected_end_unreachable_witness :
    resolveLoop sampleHost sampleMemory (ParseIntoArray "Transform.Scale" '.')
        ((ParseIntoArray "Transform.Scale" '.').length + 10) 0
        (sampleMemory.classOf (0, [])) (0, [])
      = ResolveNestedPropertyPath sampleHost sampleMemory (some (0, [])) "Transform.Scale"
          none "" :=
  (C28_unexpected_end_unreachable sampleHost sampleMemory (some (0, [])) "Transform.Scale"
    none "").2 (0, []) 10 rfl (by decide) (by decide)

/-! ### The returned flag and `OutError` -/

theorem invalidEnumValueMsg_ne_empty (s en : String) : invalidEnumValueMsg s en ≠ "" := by
  simp only [invalidEnumValueMsg, String.append_assoc]
  exact append_ne_empty _ _ (by decide)

theorem invalidEnumNumberMsg_ne_empty (Val : Int) (en : String) :
    invalidEnumNumberMsg Val en ≠ "" := by
  simp only [invalidEnumNumberMsg, String.append_assoc]
  exact append_ne_empty _ _ (by decide)

theorem failedToLoadMsg_ne_empty (Path : String) :
    "Failed to load object at path: " ++ Path ≠ "" :=
  append_ne_empty _ _ (by decide)

/-- Every run of the body ends with the flag `true` and an empty message, or with the
flag `false` and a non-empty message. -/
theorem applyCore_flag_and_message (h : Host) (c : Container) (p : FProperty)
    (v : JsonValue) :
    ((applyCore h c p v).ok = true ∧ (applyCore h c p v).OutError = "") ∨
    ((applyCore h c p v).ok = false ∧ (applyCore h c p v).OutError ≠ "") := by
  obtain ⟨name, kind⟩ := p
  have m1 := invalidEnumValueMsg_ne_empty
  have m2 := invalidEnumNumberMsg_ne_empty
  have m3 := failedToLoadMsg_ne_empty
  cases kind with
  | byte en =>
    cases en <;> cases v <;> simp [applyCore] <;> split_ifs <;> simp [m1, m2]
  | enum en u =>
    cases en <;> cases u <;> cases v <;> simp [applyCore] <;> split_ifs <;> simp [m1, m2]
  | struct tn fields =>
    cases v with
    | array items =>
      rcases items with _ | ⟨a0, _ | ⟨a1, _ | ⟨a2, rest⟩⟩⟩ <;> simp [applyCore]
      split_ifs <;> simp
    | string Txt =>
      cases hp : h.parseJsonObject Txt with
      | none => simp [applyCore, hp]
      | some obj =>
        by_cases hc : (h.jsonObjectToUStruct obj fields (readStruct (c.get name))).1 = true
        · simp [applyCore, hp, hc]
        · simp [applyCore, hp, hc]
    | _ => simp [applyCore]
  | array inner =>
    cases v <;> simp [applyCore]
    split_ifs <;> simp
  | object =>
    cases v <;> simp [applyCore]
    split_ifs <;> simp [m3]
  | _ =>
    cases v <;> simp [applyCore] <;> split_ifs <;> simp

/-- C26: whatever the container, the property, the JSON value and the contents of
`OutError` on entry are, `ApplyJsonValueToProperty` returns failure exactly when
`OutError` is non-empty on return: every failing path sets a non-empty message, every
succeeding path leaves `OutError` empty. -/
theorem C26_failure_iff_message (h : Host) (c : Option Container) (p : Option FProperty)
    (v : Option JsonValue) (e : String) :
    ((ApplyJsonValueToProperty h c p v e).1 = false ↔
      (ApplyJsonValueToProperty h c p v e).2.1 ≠ "") ∧
    ((ApplyJsonValueToProperty h c p v e).1 = true ↔
      (ApplyJsonValueToProperty h c p v e).2.1 = "") := by
  have hshape : ((ApplyJsonValueToProperty h c p v e).1 = true ∧
        (ApplyJsonValueToProperty h c p v e).2.1 = "") ∨
      ((ApplyJsonValueToProperty h c p v e).1 = false ∧
        (ApplyJsonValueToProperty h c p v e).2.1 ≠ "") := by
    cases c with
    | none => exact Or.inr ⟨rfl, by simp [ApplyJsonValueToProperty]⟩
    | some c0 =>
      cases p with
      | none => exact Or.inr ⟨rfl, by simp [ApplyJsonValueToProperty]⟩
      | some p0 =>
        cases v with
        | none => exact Or.inr ⟨rfl, by simp [ApplyJsonValueToProperty]⟩
        | some v0 => exact applyCore_flag_and_message h c0 p0 v0
  rcases hshape with ⟨hok, hmsg⟩ | ⟨hok, hmsg⟩
  · simp [hok, hmsg]
  · simp [hok, hmsg]

/-! ### What a successful resolution has done -/

/-- A run of the loop that returns a property has descended through the segments before
the last one and has found the property, under the last segment, in the scope reached;
the container it hands out is the container reached. -/
theorem resolveLoop_success_descent {Ptr : Type} (h : Host) (M : Memory Ptr)
    (rest : List String) :
    ∀ (pre : List String) (scope : UStruct) (cur : Ptr) (p : FProperty) (c : Option Ptr)
      (e : String), rest ≠ [] →
      resolveLoop h M (pre ++ rest) rest.length pre.length scope cur = ⟨some p, c, e⟩ →
      ∃ (mid : List String) (last : String) (target : UStruct × Ptr),
        rest = mid ++ [last] ∧ descend h M scope cur mid = some target ∧
        FindFProperty h target.1 last = some p ∧ c = some target.2 ∧ e = "" := by
  induction rest with
  | nil =>
    intro pre scope cur p c e hne
    exact absurd rfl hne
  | cons seg post ih =>
    intro pre scope cur p c e _ hres
    rw [List.length_cons, resolveLoop_step] at hres
    cases hfind : FindFProperty h scope seg with
    | none =>
      rw [hfind] at hres
      simp at hres
    | some q =>
      rw [hfind] at hres
      by_cases hp : post = []
      · subst hp
        simp only [if_true, ResolveResult.mk.injEq, Option.some.injEq] at hres
        obtain ⟨hq, hc, he⟩ := hres
        subst hq
        exact ⟨[], seg, (scope, cur), rfl, rfl, hfind, hc.symm, he.symm⟩
      · simp only [hp, if_false] at hres
        have hlist : pre ++ seg :: post = (pre ++ [seg]) ++ post := by simp
        have hlen : pre.length + 1 = (pre ++ [seg]).length := by simp
        cases hk : q.kind with
        | object =>
          simp only [hk] at hres
          cases hov : M.objectValue cur q with
          | none =>
            simp only [hov] at hres
            simp at hres
          | some o =>
            simp only [hov] at hres
            rw [hlist, hlen] at hres
            obtain ⟨mid, last, target, hsplit, hdesc, hlast, hc, he⟩ :=
              ih (pre ++ [seg]) (M.classOf o) o p c e hp hres
            refine ⟨seg :: mid, last, target, by simp [hsplit], ?_, hlast, hc, he⟩
            simp [descend, descendStep, hfind, hk, hov, hdesc]
        | struct typeName fields =>
          simp only [hk] at hres
          rw [hlist, hlen] at hres
          obtain ⟨mid, last, target, hsplit, hdesc, hlast, hc, he⟩ :=
            ih (pre ++ [seg]) (structScope typeName fields) (M.valuePtr cur q) p c e hp hres
          refine ⟨seg :: mid, last, target, by simp [hsplit], ?_, hlast, hc, he⟩
          simp [descend, descendStep, hfind, hk, hdesc]
        | _ =>
          simp only [hk] at hres
          simp at hres

theorem FindFProperty_mem (h : Host) (scope : UStruct) (seg : String) (p : FProperty)
    (hf : FindFProperty h scope seg = some p) :
    p ∈ scope.props ∧ h.fnameEq p.name seg = true := by
  unfold FindFProperty at hf
  have hq := List.find?_some hf
  exact ⟨List.mem_of_find?_eq_some hf, by simpa using hq⟩

theorem FindFProperty_none_iff (h : Host) (scope : UStruct) (seg : String) :
    FindFProperty h scope seg = none ↔ ∀ p ∈ scope.props, h.fnameEq p.name seg = false := by
  simp [FindFProperty, List.find?_eq_none]

/-- C10: for every root and path, and whatever the two out-parameters held on entry, the
resolver ends in one of two states: it returns no property, the out-container is null and
`OutError` is non-empty; or it returns a property, the out-container is non-null and
`OutError` is empty.  So a property is returned exactly when the out-container is
non-null, and exactly when `OutError` is empty; the entry contents play no part.  On
success the out-container is the container that holds the returned property: the
container reached by descending from the root through the segments before the last, in
whose scope the last segment names the returned property. -/
theorem C10_resolve_out_parameters {Ptr : Type} (h : Host) (M : Memory Ptr)
    (root : Option Ptr) (path : String) (c0 : Option Ptr) (e0 : String) :
    (((ResolveNestedPropertyPath h M root path c0 e0).property = none ∧
        (ResolveNestedPropertyPath h M root path c0 e0).OutContainerPtr = none ∧
        (ResolveNestedPropertyPath h M root path c0 e0).OutError ≠ "") ∨
      ((ResolveNestedPropertyPath h M root path c0 e0).property.isSome = true ∧
        (ResolveNestedPropertyPath h M root path c0 e0).OutContainerPtr.isSome = true ∧
        (ResolveNestedPropertyPath h M root path c0 e0).OutError = "")) ∧
    ResolveNestedPropertyPath h M root path c0 e0
      = ResolveNestedPropertyPath h M root path none "" ∧
    (∀ p : FProperty, (ResolveNestedPropertyPath h M root path c0 e0).property = some p →
      ∃ (r : Ptr) (pre : List String) (last : String) (target : UStruct × Ptr),
        root = some r ∧ ParseIntoArray path '.' = pre ++ [last] ∧
        descend h M (M.classOf r) r pre = some target ∧
        FindFProperty h target.1 last = some p ∧ p ∈ target.1.props ∧
        (ResolveNestedPropertyPath h M root path c0 e0).OutContainerPtr = some target.2) := by
  refine ⟨?_, rfl, ?_⟩
  · cases root with
    | none => exact Or.inl ⟨rfl, rfl, by simp [ResolveNestedPropertyPath]⟩
    | some r =>
      by_cases hp : path = ""
      · subst hp
        exact Or.inl ⟨rfl, rfl, by simp [ResolveNestedPropertyPath]⟩
      · by_cases hz : (ParseIntoArray path '.').length = 0
        · left
          simp [ResolveNestedPropertyPath, hp, hz]
        · simp only [ResolveNestedPropertyPath, hp, hz, if_false]
          rcases resolveLoop_shape h M (ParseIntoArray path '.')
            (ParseIntoArray path '.').length 0 (M.classOf r) r with
            ⟨msg, hmsg, hres⟩ | ⟨p, c, hres⟩
          · left
            rw [hres]
            exact ⟨rfl, rfl, hmsg⟩
          · right
            rw [hres]
            exact ⟨rfl, rfl, rfl⟩
  · intro p hprop
    cases root with
    | none => simp [ResolveNestedPropertyPath] at hprop
    | some r =>
      by_cases hp : path = ""
      · simp [ResolveNestedPropertyPath, hp] at hprop
      · by_cases hz : (ParseIntoArray path '.').length = 0
        · simp [ResolveNestedPropertyPath, hp, hz] at hprop
        · have hne : ParseIntoArray path '.' ≠ [] := fun hnil => hz (by rw [hnil]; rfl)
          have hloop := Resolve_eq_loop h M r path c0 e0 (ParseIntoArray path '.') rfl hne
          rw [hloop] at hprop ⊢
          have hres : resolveLoop h M ([] ++ ParseIntoArray path '.')
              (ParseIntoArray path '.').length ([] : List String).length (M.classOf r) r
              = ⟨some p,
                  (resolveLoop h M (ParseIntoArray path '.') (ParseIntoArray path '.').length
                    0 (M.classOf r) r).OutContainerPtr,
                  (resolveLoop h M (ParseIntoArray path '.') (ParseIntoArray path '.').length
                    0 (M.classOf r) r).OutError⟩ := by
            simp only [List.nil_append, List.length_nil]
            rw [← hprop]
          obtain ⟨mid, last, target, hsplit, hdesc, hlast, hc, _⟩ :=
            resolveLoop_success_descent h M (ParseIntoArray path '.') [] (M.classOf r) r p
              _ _ hne hres
          exact ⟨r, mid, last, target, rfl, hsplit, hdesc, hlast,
            (FindFProperty_mem h target.1 last p hlast).1, hc⟩

/-- Witness of C10: on `Transform.Scale` the container handed out is the address of the
struct `Transform` inside the root, reached through the segment `Transform`. -/
theorem C10_resolve_out_parameters_witness :
    ∃ (r : Nat × List String) (pre : List String) (last : String)
      (target : UStruct × (Nat × List String)),
      some ((0, []) : Nat × List String) = some r ∧
      ParseIntoArray "Transform.Scale" '.' = pre ++ [last] ∧
      descend sampleHost sampleMemory (sampleMemory.classOf r) r pre = some target ∧
      FindFProperty sampleHost target.1 last = some ⟨"Scale", .float⟩ ∧
      (⟨"Scale", .float⟩ : FProperty) ∈ target.1.props ∧
      (ResolveNestedPropertyPath sampleHost sampleMemory (some (0, [])) "Transform.Scale"
        none "").OutContainerPtr = some target.2 :=
  (C10_resolve_out_parameters sampleHost sampleMemory (some (0, [])) "Transform.Scale"
    none "").2.2 ⟨"Scale", .float⟩ rfl

/-- Counterexample to C12 as stated: with the name comparison of the engine, which
ignores letter case, the segment `scale` of the path `Transform.scale` equals no declared
name of the scope `Transform` exactly, differs from the declared `Scale` in letter case
only, and the resolver returns `Scale` instead of the not-found error. -/
theorem C12_counterexample :
    (∀ p ∈ (structScope "Transform" [("Scale", .float)]).props, p.name ≠ "scale") ∧
    equalsIgnoreCase "Scale" "scale" = true ∧
    ResolveNestedPropertyPath sampleHost sampleMemory (some (0, [])) "Transform.scale"
        none ""
      = ⟨some ⟨"Scale", .float⟩, some (0, ["Transform"]), ""⟩ := by
  refine ⟨by simp [structScope], by decide, rfl⟩

/-- C12 as amended: the resolver matches a segment against the property names declared in
the scope reached by equality of `FName`s.  When no declared name is equal to the segment
as an `FName`, the resolver fails with the not-found error for that segment.  When some
declared name is equal to it as an `FName` and the segment is the last one, the resolver
returns a declared property whose name is equal to the segment as an `FName`, with the
container reached and an empty `OutError`; so for the last segment no property is
returned exactly when no declared name is equal to it as an `FName`.  (In the engine two
names that differ in letter case only are equal as `FName`s.) -/
theorem C12_resolver_matches_by_fname {Ptr : Type} (h : Host) (M : Memory Ptr) (root : Ptr)
    (path : String) (c0 : Option Ptr) (e0 : String) (pre : List String) (seg : String)
    (post : List String) (target : UStruct × Ptr)
    (hsegs : ParseIntoArray path '.' = pre ++ seg :: post)
    (hdesc : descend h M (M.classOf root) root pre = some target) :
    ((∀ p ∈ target.1.props, h.fnameEq p.name seg = false) →
      ResolveNestedPropertyPath h M (some root) path c0 e0
        = ⟨none, none, notFoundMsg seg target.1.name (pre.length + 1)
            (pre ++ seg :: post).length⟩) ∧
    ((∃ p ∈ target.1.props, h.fnameEq p.name seg = true) → post = [] →
      ∃ q ∈ target.1.props, h.fnameEq q.name seg = true ∧
        ResolveNestedPropertyPath h M (some root) path c0 e0
          = ⟨some q, some target.2, ""⟩) ∧
    (post = [] →
      ((ResolveNestedPropertyPath h M (some root) path c0 e0).property = none ↔
        ∀ p ∈ target.1.props, h.fnameEq p.name seg = false)) := by
  have hloop : ResolveNestedPropertyPath h M (some root) path c0 e0
      = resolveLoop h M (pre ++ seg :: post) (post.length + 1) pre.length
          target.1 target.2 := by
    rw [Resolve_eq_loop h M root path c0 e0 (pre ++ seg :: post) hsegs (by simp),
      resolveLoop_after_descend h M pre seg post _ _ target hdesc]
  rw [hloop, resolveLoop_step]
  refine ⟨?_, ?_, ?_⟩
  · intro hnone
    rw [(FindFProperty_none_iff h target.1 seg).mpr hnone]
  · rintro ⟨p, hp, hpe⟩ hpost
    cases hfind : FindFProperty h target.1 seg with
    | none =>
      have := (FindFProperty_none_iff h target.1 seg).mp hfind p hp
      rw [this] at hpe
      exact absurd hpe (by decide)
    | some q =>
      have hq := FindFProperty_mem h target.1 seg q hfind
      exact ⟨q, hq.1, hq.2, by simp [hpost]⟩
  · intro hpost
    cases hfind : FindFProperty h target.1 seg with
    | none =>
      have hall := (FindFProperty_none_iff h target.1 seg).mp hfind
      simp only [true_iff]
      exact hall
    | some q =>
      have hq := FindFProperty_mem h target.1 seg q hfind
      simp only [hpost, if_true]
      constructor
      · intro hc
        simp at hc
      · intro hall
        have := hall q hq.1
        rw [hq.2] at this
        exact absurd this (by decide)

/-- Witness of the amended C12: `Transform.Bogus` fails with the not-found error, no name
declared in `Transform` being equal to `Bogus`. -/
theorem C12_resolver_matches_by_fname_witness :
    ResolveNestedPropertyPath sampleHost sampleMemory (some (0, [])) "Transform.Bogus"
        none ""
      = ⟨none, none, notFoundMsg "Bogus" "Transform" 2 2⟩ :=
  (C12_resolver_matches_by_fname sampleHost sampleMemory (0, []) "Transform.Bogus" none ""
    ["Transform"] "Bogus" [] (structScope "Transform" [("Scale", .float)], (0, ["Transform"]))
    (by decide) rfl).1 (by decide)

/-! ### Enum members of value -1 -/

/-- C22, the code at the input `String("Unset")` on an Enum property of the enum with the
members `Unset = -1` and `First = 0`: the text is the registered name of a member, so it
resolves by its bare name, yet the call fails with the invalid-enum-value error and
stores nothing, because the value found is the one the code reads as "not found". -/
theorem C22_enum_string_sentinel :
    (("Unset", -1) : String × Int) ∈ enumSigned.members ∧
    enumSigned.GetValueByNameString "Unset" = INDEX_NONE ∧
    ApplyJsonValueToProperty sampleHost (some [("Level", .enumVal 0)])
        (some ⟨"Level", .enum (some enumSigned) true⟩) (some (.string "Unset")) ""
      = (false, "Invalid enum value 'Unset' for enum 'ESigned'",
          some [("Level", .enumVal 0)]) := by
  refine ⟨by decide, by decide, rfl⟩

/-- C30, the code at the member `Unset = -1`: applying its name fails and stores nothing,
while applying its number to the same property succeeds and stores -1, after which the
export gives the name `Unset`. -/
theorem C30_member_valued_index_none :
    ApplyJsonValueToProperty sampleHost (some [("Mode", .enumVal 0)])
        (some ⟨"Mode", .enum (some enumSigned) true⟩) (some (.string "Unset")) ""
      = (false, "Invalid enum value 'Unset' for enum 'ESigned'",
          some [("Mode", .enumVal 0)]) ∧
    ApplyJsonValueToProperty sampleHost (some [("Mode", .enumVal 0)])
        (some ⟨"Mode", .enum (some enumSigned) true⟩) (some (.number (-1))) ""
      = (true, "", some [("Mode", .enumVal (-1))]) ∧
    ExportPropertyToJsonValue sampleHost (some [("Mode", .enumVal (-1))])
        (some ⟨"Mode", .enum (some enumSigned) true⟩)
      = some (.string "Unset") := by
  refine ⟨rfl, ?_, ?_⟩
  · have h64 : toInt64 sampleHost (-1 : ℚ) = -1 := by
      simpa using toInt64_of_range sampleHost (-1) (by decide) (by decide)
    simp [ApplyJsonValueToProperty, applyCore, h64, UEnum.IsValidEnumValue, enumSigned,
      Container.set]
  · simp [ExportPropertyToJsonValue, exportCore, Container.get, readEnum,
      UEnum.GetNameStringByValue, enumSigned]

end McpBridge
